import Mathlib

/-!
Shallow embedding of `release/src/router/snooper/cache.c` (asuswrt-merlin
IGMP snooper membership cache).

Modelling conventions, chosen once for the whole file:

* MAC addresses (`unsigned char ea[6]`) and IPv4 addresses (`in_addr_t`)
  are modelled as `Nat`; the code only ever compares them for equality
  (`memcmp`/`==`), so any type with decidable equality is faithful.
* Ticks (`unsigned long`) are modelled as `Nat`.  The wraparound-safe
  comparisons `time_after/time_before/time_after_eq` of the snooper are
  modelled as the ordinary `Nat` order; this is exact as long as no tick
  arithmetic wraps 2^64, which is the regime every claim lives in.
* The hash table (`HASH_SIZE` buckets, bucket = `ether_hash(ea) % 64`,
  lookup by full `memcmp` inside the bucket) and the age-ordered pool
  queue always hold exactly the same set of live records, and a record
  with address `ea` can only ever be found in the bucket determined by
  `ea`; both structures are therefore modelled by the single
  insertion-ordered list of live records, with lookup by first match.
* `calloc` is assumed to succeed (memory exhaustion of the host OS is
  outside every claim).  Consequence in `get_host`: cache.c lines 112 to
  114 increment `hosts.count` only when `calloc` fails, so the count never
  rises and the `HOST_POOL_SIZE` capacity gate of line 108 never engages.
* Freed `member_entry` records live on a free list and are `memset` to
  zero on reuse (cache.c line 179), so their contents are unobservable;
  the free list is modelled by the number of records on it.
* The switch driver and the timer framework are external (snooper.h,
  not part of this repository).  Driver calls are modelled as an emitted
  trace; the driver port lookup result is an input oracle.  A timer is
  modelled as a pending flag plus its deadline, per spec section 4.4.
* `PORT_MAX` and `TIMER_HZ` come from snooper.h, which is not under
  src/.  Modelled from the spec: `PORT_MAX` is the number of switch
  ports minus one (external configuration, fixed here to 8) and
  `TIMER_HZ` is the number of ticks per time unit (fixed here to 10).
* Known defect (spec section 9): on the recycling paths the C executes
  `memset(&host, 0, sizeof(*host))` (get_host, line 130) and
  `memset(&group, 0, sizeof(group))` (get_group, line 247), which clear
  the local pointer variable / bytes of the caller stack frame instead
  of the pointed-to record -- undefined behaviour.  The embedding gives
  these lines their only defined-data reading: the recycled record's
  fields are not cleared (for a group, `init_group` still resets the
  portmap and the member lists right after).
-/

def GROUP_POOL_SIZE : Nat := 512
def MEMBER_POOL_SIZE : Nat := 1024
def HOST_POOL_SIZE : Nat := 32
def HOST_TTL : Nat := 3

/-- Modelled from the spec: number of switch ports minus one, an external
configuration constant from snooper.h (not in src/). -/
def PORT_MAX : Nat := 8

/-- Modelled from the spec: ticks per time unit, an external constant from
snooper.h (not in src/); `HOST_TTL` time units are `HOST_TTL * TIMER_HZ` ticks. -/
def TIMER_HZ : Nat := 10

/-- Sentinel distance `~0UL/2` used by the sweep callbacks (cache.c lines
329 and 434) with 64-bit `unsigned long`. -/
def HALF : Nat := 2 ^ 63 - 1

/-- Bitwise a AND NOT b on `Nat`, the `x &= ~y` idiom of cache.c
(lines 344, 415, 459, 498). -/
def land_not (a b : Nat) : Nat := a ^^^ (a &&& b)

/-- `struct member_entry` (cache.c line 63): one subscriber address on one
port of one group.  The intrusive list link is represented by list
membership. -/
structure member_entry where
  time : Nat
  addr : Nat
deriving DecidableEq

/-- `struct host_entry` (cache.c line 47): cached MAC to port mapping.
`port` is a C `int`: negative values mean unknown. -/
structure host_entry where
  time : Nat
  port : Int
  ea : Nat
deriving DecidableEq

/-- `struct group_entry` (cache.c line 73): one multicast group.
`members` has one list per physical port 0..PORT_MAX (length PORT_MAX+1). -/
structure group_entry where
  members : List (List member_entry)
  time : Nat
  portmap : Nat
  ea : Nat
deriving DecidableEq

/-- A timer of the external timer framework, as used by cache.c:
whether it is armed, and its deadline (`timer->expires`). -/
structure timer_entry where
  pending : Bool
  expires : Nat
deriving DecidableEq

/-- The whole mutable state of cache.c: the statics `hosts`, `members`,
`groups` and `routers`. -/
structure CacheState where
  hosts_pool : List host_entry
  hosts_count : Nat
  members_free : Nat
  members_count : Nat
  groups_pool : List group_entry
  groups_count : Nat
  groups_timer : timer_entry
  routers_group : group_entry
  routers_timer : timer_entry
deriving DecidableEq

/-- A call into the external switch driver. -/
inductive drv_call where
  | query_port (ea : Nat)
  | add_portmap (ea : Nat) (mask : Nat)
  | del_portmap (ea : Nat) (mask : Nat)
  | clr_portmap (ea : Nat)
deriving DecidableEq

/-- `get_portmap` (cache.c line 270): OR of `1 << port` over the ports
whose member list is non-empty. -/
def get_portmap (group : group_entry) : Nat :=
  (List.range (PORT_MAX + 1)).foldl
    (fun pm port => if group.members.getD port [] ≠ [] then pm ||| (1 <<< port) else pm) 0

/-- `init_group` (cache.c line 202): clear the portmap and re-init every
member list; `time` and `ea` are not touched. -/
def init_group (group : group_entry) : group_entry :=
  { group with portmap := 0, members := List.replicate (PORT_MAX + 1) [] }

/-- `consume_group` (cache.c line 258): clear the portmap and return every
member of every list to the free pool (the freed count is accounted by the
callers via `group_member_total`). -/
def consume_group (group : group_entry) : group_entry :=
  { group with portmap := 0, members := List.replicate (PORT_MAX + 1) [] }

/-- Number of live members held by a group, i.e. how many records
`consume_group` pushes back onto the free list. -/
def group_member_total (group : group_entry) : Nat :=
  (group.members.map List.length).sum

/-- A `group_entry` as produced by `calloc` in `get_group` followed by
`init_group`: everything zero, member lists empty. -/
def fresh_group_entry : group_entry :=
  { members := List.replicate (PORT_MAX + 1) [], time := 0, portmap := 0, ea := 0 }

/-- Replace the first entry whose MAC is `ea` by `f` of it, leaving the rest
alone: the effect of mutating through the pointer found by the hash lookup. -/
def modify_host : List host_entry → Nat → (host_entry → host_entry) → List host_entry
  | [], _, _ => []
  | h :: rest, ea, f =>
      if h.ea = ea then f h :: rest else h :: modify_host rest ea f

/-- `get_host` (cache.c line 98): look the MAC up; on miss allocate a fresh
slot while `hosts.count` is under `HOST_POOL_SIZE`, else recycle the first
queue entry whose expiry has passed (`time_before(host->time, time)`), else
fail.  Returns the new pool, the new count, and the record now keyed to
`ea` (if any).

A fresh slot is calloc-zeroed, so it starts with `time = 0`, `port = 0`.
Note the count update of cache.c lines 112 to 114: `host = calloc(...);
if (!host) hosts.count++;` -- the count is incremented only when `calloc`
FAILS (the group table's counterpart at lines 228 to 230 has the opposite,
`if (group) groups.count++`).  Since this embedding takes `calloc` to
succeed, the count is left unchanged on the fresh path, exactly as in the
program: the capacity gate of line 108 then never engages and the live
host table grows beyond `HOST_POOL_SIZE`.
A recycled slot keeps its previous `time` and `port`: the `memset` on
cache.c line 130 targets the pointer variable, not the record (the defect
of spec section 9), so the record's fields are never actually cleared. -/
def get_host (pool : List host_entry) (count : Nat) (ea : Nat) (time : Nat) :
    List host_entry × Nat × Option host_entry :=
  match pool.find? (fun h => h.ea = ea) with
  | some h => (pool, count, some h)
  | none =>
      if count < HOST_POOL_SIZE then
        let h : host_entry := { time := 0, port := 0, ea := ea }
        (pool ++ [h], count, some h)
      else
        match pool.find? (fun h => h.time < time) with
        | none => (pool, count, none)
        | some victim =>
            let h : host_entry := { victim with ea := ea }
            (pool.eraseP (fun h => decide (h.time < time)) ++ [h], count, some h)

/-- `get_port` (cache.c line 140), the public `resolve_port`.  `drvport` is
the oracle answer `switch_get_port` would give for `haddr`.  Returns the
resolved port, the new state, and the emitted driver calls. -/
def get_port (s : CacheState) (haddr : Nat) (now : Nat) (drvport : Int) :
    Int × CacheState × List drv_call :=
  match get_host s.hosts_pool s.hosts_count haddr now with
  | (pool1, count1, some h) =>
      if now ≤ h.time then
        (h.port, { s with hosts_pool := pool1, hosts_count := count1 }, [])
      else if 0 ≤ drvport ∧ drvport ≤ (PORT_MAX : Int) then
        (drvport,
         { s with hosts_count := count1,
                  hosts_pool := modify_host pool1 haddr
                    (fun h => { h with port := drvport, time := now + HOST_TTL * TIMER_HZ }) },
         [drv_call.query_port haddr])
      else
        (drvport, { s with hosts_pool := pool1, hosts_count := count1 },
         [drv_call.query_port haddr])
  | (pool1, count1, none) =>
      (drvport, { s with hosts_pool := pool1, hosts_count := count1 },
       [drv_call.query_port haddr])

/-- Lookup part of `get_member` (cache.c line 169): first member with this
address on this port's list. -/
def get_member (lst : List member_entry) (addr : Nat) : Option member_entry :=
  lst.find? (fun m => m.addr = addr)

/-- Allocation part of `get_member` (cache.c lines 176 to 193) on one
port's list: reuse an existing member with this address, else pop the free
list (the record is memset to zero there, so it surfaces as `time = 0`),
else reserve a fresh record while under `MEMBER_POOL_SIZE`, else fail.
Returns the new list and the new free and total counts. -/
def member_insert (lst : List member_entry) (addr : Nat) (free count : Nat) :
    Option (List member_entry × Nat × Nat) :=
  if lst.any (fun m => m.addr = addr) then some (lst, free, count)
  else if 0 < free then some ({ time := 0, addr := addr } :: lst, free - 1, count)
  else if count < MEMBER_POOL_SIZE then
    some ({ time := 0, addr := addr } :: lst, free, count + 1)
  else none

/-- `member->time = group->time` through the pointer `get_member` returned:
refresh the first member with this address. -/
def refresh_member : List member_entry → Nat → Nat → List member_entry
  | [], _, _ => []
  | m :: rest, addr, t =>
      if m.addr = addr then { m with time := t } :: rest
      else m :: refresh_member rest addr t

/-- Replace the first group whose MAC is `ea` by `f` of it: the effect of
mutating through the pointer found by the hash lookup. -/
def modify_group : List group_entry → Nat → (group_entry → group_entry) → List group_entry
  | [], _, _ => []
  | g :: rest, ea, f =>
      if g.ea = ea then f g :: rest else g :: modify_group rest ea f

/-- Allocating part of `get_group` (cache.c line 212, `allocate` true):
on lookup miss take a calloc-zeroed slot while under `GROUP_POOL_SIZE`,
else recycle the first pool group whose portmap is 0 (clearing its driver
forwarding mask first), else fail.  The recycled record is re-initialised
by `init_group` and re-keyed; its `time` field survives (the `memset` on
cache.c line 247 clears the pointer variable, not the record -- the defect
of spec section 9).  Returns the new pool, count and driver trace. -/
def get_group_alloc (pool : List group_entry) (count : Nat) (ea : Nat) :
    Option (List group_entry × Nat × List drv_call) :=
  match pool.find? (fun g => g.ea = ea) with
  | some _ => some (pool, count, [])
  | none =>
      if count < GROUP_POOL_SIZE then
        some (pool ++ [{ fresh_group_entry with ea := ea }], count + 1, [])
      else
        match pool.find? (fun g => g.portmap = 0) with
        | none => none
        | some victim =>
            some (pool.eraseP (fun g => decide (g.portmap = 0)) ++
                    [{ init_group victim with ea := ea }],
                  count, [drv_call.clr_portmap victim.ea])

/-- The common mutation of `add_member` and `add_router` on the fetched
group (cache.c lines 367 to 371 and 480 to 484): set the group expiry,
insert or refresh the member on `p` (when the pool allows), refresh the
member's expiry through the returned pointer, and recompute the portmap.
Returns the updated group and the new member-pool free and total counts. -/
def upd_group_add (g0 : group_entry) (addr p gtime free count : Nat) :
    group_entry × Nat × Nat :=
  let lst := g0.members.getD p []
  let (lst2, free1, count2) :=
    match member_insert lst addr free count with
    | some (l1, f1, c1) => (refresh_member l1 addr gtime, f1, c1)
    | none => (lst, free, count)
  let g1 : group_entry := { g0 with time := gtime, members := g0.members.set p lst2 }
  ({ g1 with portmap := get_portmap g1 }, free1, count2)

/-- `add_member` (cache.c line 353).  Returns the C return value (−1 on an
invalid port, else the newly activated port bits), the new state, and the
emitted driver calls. -/
def add_member (s : CacheState) (maddr addr : Nat) (port : Int) (timeout now : Nat) :
    Int × CacheState × List drv_call :=
  if port < 0 ∨ (PORT_MAX : Int) < port then (-1, s, [])
  else
    match get_group_alloc s.groups_pool s.groups_count maddr with
    | none => (0, s, [])
    | some (pool1, count1, tr1) =>
        match pool1.find? (fun g => g.ea = maddr) with
        | none => (0, { s with groups_pool := pool1, groups_count := count1 }, tr1)
        | some g0 =>
            let gtime := now + timeout
            let (g2, free1, count2) :=
              upd_group_add g0 addr port.toNat gtime s.members_free s.members_count
            let delta := (g0.portmap ^^^ g2.portmap) &&& g2.portmap
            let timer1 := if !s.groups_timer.pending ∨ gtime < s.groups_timer.expires
                          then { pending := true, expires := gtime } else s.groups_timer
            (Int.ofNat delta,
             { s with groups_pool := modify_group pool1 maddr (fun _ => g2),
                      groups_count := count1, members_free := free1,
                      members_count := count2, groups_timer := timer1 },
             tr1 ++ (if delta ≠ 0
                     then [drv_call.add_portmap maddr (delta ||| s.routers_group.portmap)]
                     else []))

/-- The mutation of `del_member` on the found group (cache.c lines 402 to
405): release the first member with this address on `p` if present, and
recompute the portmap.  Also reports whether a member was released. -/
def upd_group_del (g0 : group_entry) (addr p : Nat) : group_entry × Bool :=
  let lst := g0.members.getD p []
  let found := lst.any (fun m => m.addr = addr)
  let lst1 := if found then lst.eraseP (fun m => decide (m.addr = addr)) else lst
  let g1 : group_entry := { g0 with members := g0.members.set p lst1 }
  ({ g1 with portmap := get_portmap g1 }, found)

/-- `del_member` (cache.c line 389), the public `remove_member`.  Returns
the C return value (−1 on an invalid port, else the deactivated port bits
after router-port exclusion), the new state, and the emitted driver calls. -/
def del_member (s : CacheState) (maddr addr : Nat) (port : Int) :
    Int × CacheState × List drv_call :=
  if port < 0 ∨ (PORT_MAX : Int) < port then (-1, s, [])
  else
    match s.groups_pool.find? (fun g => g.ea = maddr) with
    | none => (0, s, [])
    | some g0 =>
        let (g2, found) := upd_group_del g0 addr port.toNat
        let delta := (g0.portmap ^^^ g2.portmap) &&& g0.portmap
        let consume := delta ≠ 0 ∧ g2.portmap = 0
        let g3 := if consume then consume_group g2 else g2
        let free1 := s.members_free + (if found then 1 else 0) +
                     (if consume then group_member_total g2 else 0)
        let ret := land_not delta s.routers_group.portmap
        (Int.ofNat ret,
         { s with groups_pool := modify_group s.groups_pool maddr (fun _ => g3),
                  members_free := free1 },
         if ret ≠ 0 then [drv_call.del_portmap maddr ret] else [])

/-- One pool iteration step of `group_timer` (cache.c lines 330 to 347).
The accumulator carries the rebuilt pool, the running minimum `expires`,
the number of members freed so far, and the emitted driver calls.
`rpm` is `routers.group.portmap`. -/
def gt_step (rpm now : Nat) (acc : List group_entry × Nat × Nat × List drv_call)
    (g : group_entry) : List group_entry × Nat × Nat × List drv_call :=
  match acc with
  | (gs, expires, freed, tr) =>
      if g.portmap = 0 then (gs ++ [g], expires, freed, tr)
      else if now < g.time then
        (gs ++ [g], (if g.time < expires then g.time else expires), freed, tr)
      else
        let m := land_not g.portmap rpm
        (gs ++ [consume_group g], expires, freed + group_member_total g,
         tr ++ (if m ≠ 0 then [drv_call.del_portmap g.ea m] else []))

/-- `group_timer` (cache.c line 323), the Group Table sweep callback:
expire every live group whose deadline has passed, then re-arm the timer
to the minimum surviving deadline, or go idle if none (spec section 4.4:
after firing the timer is pending only if `mod_timer` re-arms it). -/
def group_timer (s : CacheState) (now : Nat) : CacheState × List drv_call :=
  match s.groups_pool.foldl (gt_step s.routers_group.portmap now) ([], now + HALF, 0, []) with
  | (gs, expires, freed, tr) =>
      let timer1 : timer_entry :=
        if expires < now + HALF then { pending := true, expires := expires }
        else { pending := false, expires := s.groups_timer.expires }
      ({ s with groups_pool := gs, members_free := s.members_free + freed,
                groups_timer := timer1 }, tr)

/-- Fan-out of `router_timer` (cache.c lines 457 to 463): for every live
group, clear the deactivated router ports the group does not need for its
own members. -/
def router_fanout_del (pool : List group_entry) (pm : Nat) : List drv_call :=
  pool.filterMap (fun g =>
    let m := land_not pm g.portmap
    if m ≠ 0 then some (drv_call.del_portmap g.ea m) else none)

/-- Fan-out of `add_router` (cache.c lines 496 to 502): for every live
group, add the newly activated router ports it does not already forward to. -/
def router_fanout_add (pool : List group_entry) (pm : Nat) : List drv_call :=
  pool.filterMap (fun g =>
    let m := land_not pm g.portmap
    if m ≠ 0 then some (drv_call.add_portmap g.ea m) else none)

/-- New deadline computed by the router sweep: minimum surviving member
expiry, seeded with `now + HALF` (cache.c lines 434 to 440). -/
def router_min_time (ports : List (List member_entry)) (seed : Nat) : Nat :=
  ports.foldl (fun t l => l.foldl (fun t m => if m.time < t then m.time else t) t) seed

/-- The member sweep of `router_timer` (cache.c lines 434 to 445): drop
every expired member, recompute the portmap, and set the group time to the
minimum surviving member expiry.  Also returns the number of members freed. -/
def router_sweep (g : group_entry) (now : Nat) : group_entry × Nat :=
  let survivors := g.members.map (fun l => l.filter (fun m => now < m.time))
  let newtime := router_min_time survivors (now + HALF)
  let g1 : group_entry := { g with members := survivors, time := newtime }
  ({ g1 with portmap := get_portmap g1 },
   group_member_total g - (survivors.map List.length).sum)

/-- `router_timer` (cache.c line 422), the router-state sweep callback.
If the group deadline is still ahead, expire members individually,
recompute the portmap and re-arm to the minimum surviving member expiry
(going idle and resetting the state if no port survives); otherwise drop
the whole router state.  Deactivated ports are then removed from every
live group that does not carry them in its own portmap.
The `portmap < 0` guard of line 430 can not fire (portmaps are ORs of
`1 << port`), so it has no counterpart here. -/
def router_timer (s : CacheState) (now : Nat) : CacheState × List drv_call :=
  let old := s.routers_group.portmap
  if now < s.routers_group.time then
    let (g2, freed) := router_sweep s.routers_group now
    let deact := (old ^^^ g2.portmap) &&& old
    let tr := if deact ≠ 0 then router_fanout_del s.groups_pool deact else []
    if g2.portmap ≠ 0 then
      ({ s with routers_group := g2,
                routers_timer := { pending := true, expires := g2.time },
                members_free := s.members_free + freed }, tr)
    else
      ({ s with routers_group := consume_group g2,
                routers_timer := { pending := false, expires := s.routers_timer.expires },
                members_free := s.members_free + freed + group_member_total g2 }, tr)
  else
    ({ s with routers_group := consume_group s.routers_group,
              routers_timer := { pending := false, expires := s.routers_timer.expires },
              members_free := s.members_free + group_member_total s.routers_group },
     if old ≠ 0 then router_fanout_del s.groups_pool old else [])

/-- `add_router` (cache.c line 466), the public `note_router`: same shape
as `add_member` but on the singleton router state, with fan-out of newly
activated router ports to every live group's forwarding mask. -/
def add_router (s : CacheState) (addr : Nat) (port : Int) (timeout now : Nat) :
    Int × CacheState × List drv_call :=
  if port < 0 ∨ (PORT_MAX : Int) < port then (-1, s, [])
  else
    let g0 := s.routers_group
    let gtime := now + timeout
    let (g2, free1, count2) :=
      upd_group_add g0 addr port.toNat gtime s.members_free s.members_count
    let delta := (g0.portmap ^^^ g2.portmap) &&& g2.portmap
    let timer1 := if !s.routers_timer.pending ∨ gtime < s.routers_timer.expires
                  then { pending := true, expires := gtime } else s.routers_timer
    (Int.ofNat delta,
     { s with routers_group := g2, routers_timer := timer1,
              members_free := free1, members_count := count2 },
     if delta ≠ 0 then router_fanout_add s.groups_pool delta else [])

/-- `expire_members` (cache.c line 507), the public `force_expire`:
set the expiry of one named group (reporting −1 if there is none) or of
every live group, then pull the sweep timer deadline forward if needed. -/
def expire_members (s : CacheState) (maddr : Option Nat) (timeout now : Nat) :
    Int × CacheState × List drv_call :=
  let time := now + timeout
  let retimer := fun (t : timer_entry) =>
    if !t.pending ∨ time < t.expires then
      { pending := true, expires := time } else t
  match maddr with
  | some ea =>
      match s.groups_pool.find? (fun g => g.ea = ea) with
      | none => (-1, s, [])
      | some _ =>
          (0, { s with groups_pool := modify_group s.groups_pool ea (fun g => { g with time := time }),
                       groups_timer := retimer s.groups_timer }, [])
  | none =>
      (0, { s with groups_pool := s.groups_pool.map (fun g => { g with time := time }),
                   groups_timer := retimer s.groups_timer }, [])

/-- `init_cache` (cache.c line 282): everything zeroed, empty pools, both
timers created but not armed, router state initialised empty. -/
def init_cache : CacheState :=
  { hosts_pool := [], hosts_count := 0, members_free := 0, members_count := 0,
    groups_pool := [], groups_count := 0,
    groups_timer := { pending := false, expires := 0 },
    routers_group := fresh_group_entry,
    routers_timer := { pending := false, expires := 0 } }

/-- States reachable from a freshly initialised cache through the public
operations and the two timer callbacks. -/
inductive Reachable : CacheState → Prop
  | init : Reachable init_cache
  | step_get_port {s : CacheState} (haddr now : Nat) (drvport : Int) :
      Reachable s → Reachable (get_port s haddr now drvport).2.1
  | step_add_member {s : CacheState} (maddr addr : Nat) (port : Int) (timeout now : Nat) :
      Reachable s → Reachable (add_member s maddr addr port timeout now).2.1
  | step_del_member {s : CacheState} (maddr addr : Nat) (port : Int) :
      Reachable s → Reachable (del_member s maddr addr port).2.1
  | step_add_router {s : CacheState} (addr : Nat) (port : Int) (timeout now : Nat) :
      Reachable s → Reachable (add_router s addr port timeout now).2.1
  | step_expire_members {s : CacheState} (maddr : Option Nat) (timeout now : Nat) :
      Reachable s → Reachable (expire_members s maddr timeout now).2.1
  | step_group_timer {s : CacheState} (now : Nat) :
      Reachable s → Reachable (group_timer s now).1
  | step_router_timer {s : CacheState} (now : Nat) :
      Reachable s → Reachable (router_timer s now).1

/-- The portmap coherence invariant of the Group Table and the router
state: every record's `portmap` field is the recomputation `get_portmap`
over its member lists, and the member-list vector has one slot per port. -/
def GroupsOk (pool : List group_entry) (rg : group_entry) : Prop :=
  (∀ g ∈ pool, g.portmap = get_portmap g ∧ g.members.length = PORT_MAX + 1) ∧
  rg.portmap = get_portmap rg ∧ rg.members.length = PORT_MAX + 1

/-- The Host Table invariant that the code actually maintains: live MACs
are pairwise distinct (lookup precedes every allocation).  The pool-size
bound of the spec is NOT invariant: `hosts.count` is only incremented when
`calloc` fails (cache.c lines 112 to 114), so the live table is unbounded. -/
def HostsOk (pool : List host_entry) : Prop :=
  (pool.map host_entry.ea).Nodup

/-- The inductive invariant of the whole cache state. -/
def CacheInv (s : CacheState) : Prop :=
  GroupsOk s.groups_pool s.routers_group ∧ HostsOk s.hosts_pool

/-- A full host pool (32 live entries): MAC 1 cached on port 3 but already
expired (time 0), the other 31 MACs fresh until tick 1000. -/
def c2_pool : List host_entry :=
  { time := 0, port := 3, ea := 1 } ::
    (List.range 31).map (fun i => { time := 1000, port := 0, ea := i + 2 })

/-- The state after resolving 33 distinct MACs (0..32) from a fresh cache
at tick 5 with driver answer port 2: one live host entry per MAC. -/
def c3_state : CacheState :=
  (List.range 33).foldl (fun s i => (get_port s i 5 2).2.1) init_cache

/-- The `portmap` of the group record keyed `ea`, 0 when there is none:
the observable forwarding bitmask the cache holds for a group MAC. -/
def group_portmap (s : CacheState) (ea : Nat) : Nat :=
  ((s.groups_pool.find? (fun g => g.ea = ea)).map group_entry.portmap).getD 0

/-- A state with one group (MAC 5) whose only member is address 7 on
port 2, while port 2 also carries an active router member: the input on
which `del_member`'s return value shows the router-port exclusion. -/
def c4_state : CacheState :=
  { hosts_pool := [], hosts_count := 0, members_free := 0, members_count := 2,
    groups_pool := [{ members := (List.replicate (PORT_MAX + 1) []).set 2
                        [{ time := 100, addr := 7 }],
                      time := 100, portmap := 4, ea := 5 }],
    groups_count := 1,
    groups_timer := { pending := true, expires := 100 },
    routers_group := { members := (List.replicate (PORT_MAX + 1) []).set 2
                         [{ time := 100, addr := 9 }],
                       time := 100, portmap := 4, ea := 0 },
    routers_timer := { pending := true, expires := 100 } }

/-- Whether a driver call is an add-ports instruction. -/
def is_add_call : drv_call → Bool
  | drv_call.add_portmap _ _ => true
  | _ => false

/-- A state with one group (MAC 5) already holding exactly the member
(address 7, port 2): the input showing that `remove_member` after
`add_member` of the same triple does not restore the pre-add bitmask when
the member existed before the add. -/
def c7_state : CacheState :=
  { hosts_pool := [], hosts_count := 0, members_free := 0, members_count := 1,
    groups_pool := [{ members := (List.replicate (PORT_MAX + 1) []).set 2
                        [{ time := 100, addr := 7 }],
                      time := 100, portmap := 4, ea := 5 }],
    groups_count := 1,
    groups_timer := { pending := true, expires := 100 },
    routers_group := fresh_group_entry,
    routers_timer := { pending := false, expires := 0 } }

/-- A full busy group for the C10 scenario: two members on port 0. -/
def c10_busy_group (i : Nat) : group_entry :=
  { members := (List.replicate (PORT_MAX + 1) []).set 0
      [{ time := 1000, addr := 1 }, { time := 1000, addr := 2 }],
    time := 1000, portmap := 1, ea := i + 2 }

/-- A state with the group pool at capacity (512 live groups, the first
of which has bitmask 0) and the member pool exhausted (1022 members in
the busy groups plus 2 router members = MEMBER_POOL_SIZE, free list
empty): adding a member to a new group MAC must recycle the bitmask-0
slot and then fail the member allocation. -/
def c10_state : CacheState :=
  { hosts_pool := [], hosts_count := 0,
    members_free := 0, members_count := MEMBER_POOL_SIZE,
    groups_pool := { members := List.replicate (PORT_MAX + 1) [], time := 50,
                     portmap := 0, ea := 1 } ::
      (List.range 511).map c10_busy_group,
    groups_count := 512,
    groups_timer := { pending := true, expires := 1000 },
    routers_group := { members := (List.replicate (PORT_MAX + 1) []).set 0
                         [{ time := 1000, addr := 9 }, { time := 1000, addr := 10 }],
                       time := 1000, portmap := 1, ea := 0 },
    routers_timer := { pending := true, expires := 1000 } }

theorem land_not_testBit (a b q : Nat) :
    (land_not a b).testBit q = (a.testBit q && !(b.testBit q)) := by
  unfold land_not
  rw [Nat.testBit_xor, Nat.testBit_and]
  cases a.testBit q <;> cases b.testBit q <;> rfl

theorem get_portmap_testBit (g : group_entry) (q : Nat) :
    (get_portmap g).testBit q =
      (decide (q < PORT_MAX + 1) && decide (g.members.getD q [] ≠ [])) := by
  unfold get_portmap
  have key : ∀ (l : List Nat) (init : Nat),
      (l.foldl (fun pm port => if g.members.getD port [] ≠ [] then pm ||| (1 <<< port) else pm)
        init).testBit q =
      (init.testBit q || (decide (q ∈ l) && decide (g.members.getD q [] ≠ []))) := by
    intro l
    induction l with
    | nil => intro init; simp
    | cons x xs ih =>
      intro init
      rw [List.foldl_cons, ih]
      by_cases hx : g.members.getD x [] ≠ []
      · rw [if_pos hx, Nat.testBit_or, Nat.one_shiftLeft, Nat.testBit_two_pow]
        by_cases hq : q = x
        · subst hq
          simp at hx
          simp [hx]
        · simp [hq, Ne.symm hq]
      · rw [if_neg hx]
        by_cases hq : q = x
        · subst hq
          simp at hx
          simp [hx]
        · simp [hq]
  rw [key]
  simp [List.mem_range]

theorem get_portmap_eq_of_members (g g' : group_entry) (h : g.members = g'.members) :
    get_portmap g = get_portmap g' := by
  unfold get_portmap
  rw [h]

theorem get_portmap_empty (g : group_entry)
    (h : g.members = List.replicate (PORT_MAX + 1) []) : get_portmap g = 0 := by
  apply Nat.eq_of_testBit_eq
  intro q
  rw [get_portmap_testBit, Nat.zero_testBit, h]
  simp [List.getD_eq_getElem?_getD, List.getElem?_replicate]
  intro _
  split <;> simp

theorem consume_group_portmap_inv (g : group_entry) :
    (consume_group g).portmap = get_portmap (consume_group g) :=
  (get_portmap_empty _ rfl).symm

theorem consume_group_members_length (g : group_entry) :
    (consume_group g).members.length = PORT_MAX + 1 := by
  simp [consume_group]

theorem set_portmap_inv (g : group_entry) :
    (({ g with portmap := get_portmap g }) : group_entry).portmap =
      get_portmap ({ g with portmap := get_portmap g }) :=
  get_portmap_eq_of_members _ _ rfl

theorem upd_group_add_portmap_inv (g0 : group_entry) (addr p gtime free count : Nat) :
    (upd_group_add g0 addr p gtime free count).1.portmap =
      get_portmap (upd_group_add g0 addr p gtime free count).1 := by
  unfold upd_group_add
  rcases hmi : member_insert (g0.members.getD p []) addr free count with _ | ⟨l1, f1, c1⟩ <;>
    simp only [hmi] <;> exact get_portmap_eq_of_members _ _ rfl

theorem upd_group_add_members_length (g0 : group_entry) (addr p gtime free count : Nat) :
    (upd_group_add g0 addr p gtime free count).1.members.length = g0.members.length := by
  unfold upd_group_add
  rcases hmi : member_insert (g0.members.getD p []) addr free count with _ | ⟨l1, f1, c1⟩ <;>
    simp [hmi]

theorem upd_group_add_ea (g0 : group_entry) (addr p gtime free count : Nat) :
    (upd_group_add g0 addr p gtime free count).1.ea = g0.ea := by
  unfold upd_group_add
  rcases hmi : member_insert (g0.members.getD p []) addr free count with _ | ⟨l1, f1, c1⟩ <;>
    simp [hmi]

theorem upd_group_add_time (g0 : group_entry) (addr p gtime free count : Nat) :
    (upd_group_add g0 addr p gtime free count).1.time = gtime := by
  unfold upd_group_add
  rcases hmi : member_insert (g0.members.getD p []) addr free count with _ | ⟨l1, f1, c1⟩ <;>
    simp [hmi]

theorem mem_modify_group (l : List group_entry) (ea : Nat) (f : group_entry → group_entry) :
    ∀ x ∈ modify_group l ea f, x ∈ l ∨ ∃ g, g ∈ l ∧ x = f g := by
  induction l with
  | nil => intro x hx; cases hx
  | cons g rest ih =>
    intro x hx
    unfold modify_group at hx
    by_cases h : g.ea = ea
    · rw [if_pos h] at hx
      rcases List.mem_cons.mp hx with h1 | h1
      · exact Or.inr ⟨g, List.mem_cons_self g rest, h1⟩
      · exact Or.inl (List.mem_cons_of_mem _ h1)
    · rw [if_neg h] at hx
      rcases List.mem_cons.mp hx with h1 | h1
      · exact Or.inl (h1 ▸ List.mem_cons_self g rest)
      · rcases ih x h1 with h2 | ⟨g', hg', rfl⟩
        · exact Or.inl (List.mem_cons_of_mem _ h2)
        · exact Or.inr ⟨g', List.mem_cons_of_mem _ hg', rfl⟩

theorem modify_group_find? (l : List group_entry) (ea : Nat) (f : group_entry → group_entry)
    (hf : ∀ g, (f g).ea = g.ea) :
    (modify_group l ea f).find? (fun g => g.ea = ea) =
      (l.find? (fun g => g.ea = ea)).map f := by
  induction l with
  | nil => rfl
  | cons g rest ih =>
    unfold modify_group
    by_cases h : g.ea = ea
    · rw [if_pos h, List.find?_cons_of_pos _ (by simp [hf, h]),
          List.find?_cons_of_pos _ (by simp [h])]
      rfl
    · rw [if_neg h, List.find?_cons_of_neg _ (by simp [h]),
          List.find?_cons_of_neg _ (by simp [h]), ih]

theorem modify_group_self (l : List group_entry) (ea : Nat) {g0 : group_entry}
    (h : l.find? (fun g => g.ea = ea) = some g0) :
    modify_group l ea (fun _ => g0) = l := by
  induction l with
  | nil => cases h
  | cons g rest ih =>
    unfold modify_group
    by_cases hg : g.ea = ea
    · rw [List.find?_cons_of_pos _ (by simp [hg])] at h
      rw [if_pos hg]
      cases h
      rfl
    · rw [List.find?_cons_of_neg _ (by simp [hg])] at h
      rw [if_neg hg, ih h]

theorem mem_modify_host (l : List host_entry) (ea : Nat) (f : host_entry → host_entry) :
    ∀ x ∈ modify_host l ea f, x ∈ l ∨ ∃ h, h ∈ l ∧ x = f h := by
  induction l with
  | nil => intro x hx; cases hx
  | cons g rest ih =>
    intro x hx
    unfold modify_host at hx
    by_cases h : g.ea = ea
    · rw [if_pos h] at hx
      rcases List.mem_cons.mp hx with h1 | h1
      · exact Or.inr ⟨g, List.mem_cons_self g rest, h1⟩
      · exact Or.inl (List.mem_cons_of_mem _ h1)
    · rw [if_neg h] at hx
      rcases List.mem_cons.mp hx with h1 | h1
      · exact Or.inl (h1 ▸ List.mem_cons_self g rest)
      · rcases ih x h1 with h2 | ⟨g', hg', rfl⟩
        · exact Or.inl (List.mem_cons_of_mem _ h2)
        · exact Or.inr ⟨g', List.mem_cons_of_mem _ hg', rfl⟩

theorem modify_host_map_ea (l : List host_entry) (ea : Nat) (f : host_entry → host_entry)
    (hf : ∀ h, (f h).ea = h.ea) :
    (modify_host l ea f).map host_entry.ea = l.map host_entry.ea := by
  induction l with
  | nil => rfl
  | cons g rest ih =>
    unfold modify_host
    by_cases h : g.ea = ea
    · rw [if_pos h]
      simp [hf]
    · rw [if_neg h]
      simp [ih]

theorem modify_host_find? (l : List host_entry) (ea : Nat) (f : host_entry → host_entry)
    (hf : ∀ h, (f h).ea = h.ea) :
    (modify_host l ea f).find? (fun h => h.ea = ea) =
      (l.find? (fun h => h.ea = ea)).map f := by
  induction l with
  | nil => rfl
  | cons g rest ih =>
    unfold modify_host
    by_cases h : g.ea = ea
    · rw [if_pos h, List.find?_cons_of_pos _ (by simp [hf, h]),
          List.find?_cons_of_pos _ (by simp [h])]
      rfl
    · rw [if_neg h, List.find?_cons_of_neg _ (by simp [h]),
          List.find?_cons_of_neg _ (by simp [h]), ih]

theorem find?_eraseP_none {α : Type} {p q : α → Bool} {l : List α}
    (h : l.find? q = none) : (l.eraseP p).find? q = none := by
  rw [List.find?_eq_none] at h ⊢
  intro x hx
  exact h x ((List.eraseP_sublist l).mem hx)

/-- Exhaustive description of the successful paths of `get_group_alloc`. -/
theorem get_group_alloc_spec {pool : List group_entry} {count ea : Nat}
    {pool1 : List group_entry} {count1 : Nat} {tr1 : List drv_call}
    (h : get_group_alloc pool count ea = some (pool1, count1, tr1)) :
    (∃ g0, pool.find? (fun g => g.ea = ea) = some g0 ∧
      pool1 = pool ∧ count1 = count ∧ tr1 = []) ∨
    (pool.find? (fun g => g.ea = ea) = none ∧
      ((count < GROUP_POOL_SIZE ∧
        pool1 = pool ++ [{ fresh_group_entry with ea := ea }] ∧
        count1 = count + 1 ∧ tr1 = []) ∨
       (¬count < GROUP_POOL_SIZE ∧
        ∃ victim, pool.find? (fun g => g.portmap = 0) = some victim ∧
          pool1 = pool.eraseP (fun g => decide (g.portmap = 0)) ++
            [{ init_group victim with ea := ea }] ∧
          count1 = count ∧ tr1 = [drv_call.clr_portmap victim.ea]))) := by
  unfold get_group_alloc at h
  rcases hf : pool.find? (fun g => g.ea = ea) with _ | g0
  · rw [hf] at h
    simp only at h
    by_cases hc : count < GROUP_POOL_SIZE
    · rw [if_pos hc] at h
      injection h with h
      injection h with h1 h
      injection h with h2 h3
      exact Or.inr ⟨hf, Or.inl ⟨hc, h1.symm, h2.symm, h3.symm⟩⟩
    · rw [if_neg hc] at h
      rcases hv : pool.find? (fun g => g.portmap = 0) with _ | victim
      · rw [hv] at h; cases h
      · rw [hv] at h
        injection h with h
        injection h with h1 h
        injection h with h2 h3
        exact Or.inr ⟨hf, Or.inr ⟨hc, victim, hv, h1.symm, h2.symm, h3.symm⟩⟩
  · rw [hf] at h
    injection h with h
    injection h with h1 h
    injection h with h2 h3
    exact Or.inl ⟨g0, hf, h1.symm, h2.symm, h3.symm⟩

/-- After a successful `get_group_alloc`, every pool record is either an
old record or a freshly initialised one. -/
theorem get_group_alloc_mem {pool : List group_entry} {count ea : Nat}
    {pool1 : List group_entry} {count1 : Nat} {tr1 : List drv_call}
    (h : get_group_alloc pool count ea = some (pool1, count1, tr1)) :
    ∀ x ∈ pool1, x ∈ pool ∨
      (x.portmap = 0 ∧ x.members = List.replicate (PORT_MAX + 1) []) := by
  rcases get_group_alloc_spec h with ⟨g0, _, rfl, _, _⟩ | ⟨_, ⟨_, rfl, _, _⟩ | ⟨_, v, _, rfl, _, _⟩⟩
  · exact fun x hx => Or.inl hx
  · intro x hx
    rcases List.mem_append.mp hx with hx | hx
    · exact Or.inl hx
    · rcases List.mem_singleton.mp hx with rfl
      exact Or.inr ⟨rfl, rfl⟩
  · intro x hx
    rcases List.mem_append.mp hx with hx | hx
    · exact Or.inl ((List.eraseP_sublist pool).mem hx)
    · rcases List.mem_singleton.mp hx with rfl
      exact Or.inr ⟨rfl, rfl⟩

/-- After a successful `get_group_alloc`, the pool has a record keyed `ea`,
and it is the first `ea` match. -/
theorem get_group_alloc_find? {pool : List group_entry} {count ea : Nat}
    {pool1 : List group_entry} {count1 : Nat} {tr1 : List drv_call}
    (h : get_group_alloc pool count ea = some (pool1, count1, tr1)) :
    ∃ g0, pool1.find? (fun g => g.ea = ea) = some g0 ∧ g0.ea = ea := by
  rcases get_group_alloc_spec h with ⟨g0, hf, rfl, _, _⟩ | ⟨hf, ⟨_, rfl, _, _⟩ | ⟨_, v, _, rfl, _, _⟩⟩
  · exact ⟨g0, hf, by simpa using List.find?_some hf⟩
  · exact ⟨{ fresh_group_entry with ea := ea },
      by rw [List.find?_append, hf]; simp [List.find?], rfl⟩
  · exact ⟨{ init_group v with ea := ea },
      by rw [List.find?_append, find?_eraseP_none hf]; simp [List.find?], rfl⟩

theorem fresh_group_entry_ok (ea : Nat) :
    ({ fresh_group_entry with ea := ea } : group_entry).portmap =
        get_portmap { fresh_group_entry with ea := ea } ∧
      ({ fresh_group_entry with ea := ea } : group_entry).members.length = PORT_MAX + 1 :=
  ⟨(get_portmap_empty _ rfl).symm, by simp [fresh_group_entry]⟩

theorem init_group_ok (g : group_entry) (ea : Nat) :
    ({ init_group g with ea := ea } : group_entry).portmap =
        get_portmap { init_group g with ea := ea } ∧
      ({ init_group g with ea := ea } : group_entry).members.length = PORT_MAX + 1 :=
  ⟨(get_portmap_empty _ rfl).symm, by simp [init_group]⟩

theorem consume_group_ok (g : group_entry) :
    (consume_group g).portmap = get_portmap (consume_group g) ∧
      (consume_group g).members.length = PORT_MAX + 1 :=
  ⟨consume_group_portmap_inv g, consume_group_members_length g⟩

theorem get_group_alloc_ok {pool : List group_entry} {count ea : Nat}
    {pool1 : List group_entry} {count1 : Nat} {tr1 : List drv_call}
    (hOk : ∀ g ∈ pool, g.portmap = get_portmap g ∧ g.members.length = PORT_MAX + 1)
    (h : get_group_alloc pool count ea = some (pool1, count1, tr1)) :
    ∀ g ∈ pool1, g.portmap = get_portmap g ∧ g.members.length = PORT_MAX + 1 := by
  intro x hx
  rcases get_group_alloc_mem h x hx with hmem | ⟨hpm, hm⟩
  · exact hOk x hmem
  · exact ⟨hpm.trans (get_portmap_empty x hm).symm, by rw [hm]; simp⟩

theorem GroupsOk_add_member {s : CacheState} (maddr addr : Nat) (port : Int) (timeout now : Nat)
    (h : GroupsOk s.groups_pool s.routers_group) :
    GroupsOk (add_member s maddr addr port timeout now).2.1.groups_pool
      (add_member s maddr addr port timeout now).2.1.routers_group := by
  obtain ⟨hpool, hr⟩ := h
  unfold add_member
  split
  · exact ⟨hpool, hr⟩
  · split
    · exact ⟨hpool, hr⟩
    · rename_i pool1 count1 tr1 halloc
      split
      · exact ⟨get_group_alloc_ok hpool halloc, hr⟩
      · rename_i g0 hfind
        refine ⟨?_, hr⟩
        intro x hx
        rcases mem_modify_group _ _ _ x hx with hmem | ⟨g', _, rfl⟩
        · exact get_group_alloc_ok hpool halloc x hmem
        · refine ⟨upd_group_add_portmap_inv _ _ _ _ _ _, ?_⟩
          rw [upd_group_add_members_length]
          exact (get_group_alloc_ok hpool halloc g0 (List.mem_of_find?_eq_some hfind)).2

theorem upd_group_del_portmap_inv (g0 : group_entry) (addr p : Nat) :
    (upd_group_del g0 addr p).1.portmap = get_portmap (upd_group_del g0 addr p).1 :=
  get_portmap_eq_of_members _ _ rfl

theorem upd_group_del_members_length (g0 : group_entry) (addr p : Nat) :
    (upd_group_del g0 addr p).1.members.length = g0.members.length := by
  unfold upd_group_del
  simp

theorem upd_group_del_ea (g0 : group_entry) (addr p : Nat) :
    (upd_group_del g0 addr p).1.ea = g0.ea := rfl

theorem upd_group_del_time (g0 : group_entry) (addr p : Nat) :
    (upd_group_del g0 addr p).1.time = g0.time := rfl

theorem router_sweep_portmap_inv (g : group_entry) (now : Nat) :
    (router_sweep g now).1.portmap = get_portmap (router_sweep g now).1 :=
  get_portmap_eq_of_members _ _ rfl

theorem router_sweep_members_length (g : group_entry) (now : Nat) :
    (router_sweep g now).1.members.length = g.members.length := by
  unfold router_sweep
  simp

theorem GroupsOk_del_member {s : CacheState} (maddr addr : Nat) (port : Int)
    (h : GroupsOk s.groups_pool s.routers_group) :
    GroupsOk (del_member s maddr addr port).2.1.groups_pool
      (del_member s maddr addr port).2.1.routers_group := by
  obtain ⟨hpool, hr⟩ := h
  unfold del_member
  split
  · exact ⟨hpool, hr⟩
  · split
    · exact ⟨hpool, hr⟩
    · rename_i g0 hfind
      refine ⟨?_, hr⟩
      intro x hx
      rcases mem_modify_group _ _ _ x hx with hmem | ⟨g', _, rfl⟩
      · exact hpool x hmem
      · have hlen := (hpool g0 (List.mem_of_find?_eq_some hfind)).2
        split
        · exact consume_group_ok _
        · refine ⟨upd_group_del_portmap_inv _ _ _, ?_⟩
          rw [upd_group_del_members_length]
          exact hlen

theorem GroupsOk_add_router {s : CacheState} (addr : Nat) (port : Int) (timeout now : Nat)
    (h : GroupsOk s.groups_pool s.routers_group) :
    GroupsOk (add_router s addr port timeout now).2.1.groups_pool
      (add_router s addr port timeout now).2.1.routers_group := by
  obtain ⟨hpool, hr⟩ := h
  unfold add_router
  split
  · exact ⟨hpool, hr⟩
  · refine ⟨hpool, upd_group_add_portmap_inv _ _ _ _ _ _, ?_⟩
    rw [upd_group_add_members_length]
    exact hr.2

theorem GroupsOk_expire_members {s : CacheState} (maddr : Option Nat) (timeout now : Nat)
    (h : GroupsOk s.groups_pool s.routers_group) :
    GroupsOk (expire_members s maddr timeout now).2.1.groups_pool
      (expire_members s maddr timeout now).2.1.routers_group := by
  obtain ⟨hpool, hr⟩ := h
  unfold expire_members
  split
  · split
    · exact ⟨hpool, hr⟩
    · refine ⟨?_, hr⟩
      intro x hx
      rcases mem_modify_group _ _ _ x hx with hmem | ⟨g', hg', rfl⟩
      · exact hpool x hmem
      · obtain ⟨h1, h2⟩ := hpool g' hg'
        exact ⟨h1.trans (get_portmap_eq_of_members _ _ rfl), by simpa using h2⟩
  · refine ⟨?_, hr⟩
    intro x hx
    rcases List.mem_map.mp hx with ⟨g', hg', rfl⟩
    obtain ⟨h1, h2⟩ := hpool g' hg'
    exact ⟨h1.trans (get_portmap_eq_of_members _ _ rfl), by simpa using h2⟩

theorem gt_step_foldl_mem (rpm now : Nat) (l : List group_entry) :
    ∀ (gs : List group_entry) (ex fr : Nat) (tr : List drv_call),
      ∀ x ∈ (l.foldl (gt_step rpm now) (gs, ex, fr, tr)).1,
        x ∈ gs ∨ ∃ g, g ∈ l ∧ (x = g ∨ x = consume_group g) := by
  induction l with
  | nil => intro gs ex fr tr x hx; exact Or.inl hx
  | cons g rest ih =>
    intro gs ex fr tr x hx
    rw [List.foldl_cons] at hx
    have hstep : gt_step rpm now (gs, ex, fr, tr) g =
        (if g.portmap = 0 then (gs ++ [g], ex, fr, tr)
         else if now < g.time then (gs ++ [g], (if g.time < ex then g.time else ex), fr, tr)
         else (gs ++ [consume_group g], ex, fr + group_member_total g,
               tr ++ (if land_not g.portmap rpm ≠ 0
                      then [drv_call.del_portmap g.ea (land_not g.portmap rpm)] else []))) := rfl
    rw [hstep] at hx
    by_cases h0 : g.portmap = 0
    · rw [if_pos h0] at hx
      rcases ih _ _ _ _ x hx with h1 | ⟨g', hg', h2⟩
      · rcases List.mem_append.mp h1 with h2 | h2
        · exact Or.inl h2
        · exact Or.inr ⟨g, List.mem_cons_self g rest, Or.inl (List.mem_singleton.mp h2)⟩
      · exact Or.inr ⟨g', List.mem_cons_of_mem _ hg', h2⟩
    · rw [if_neg h0] at hx
      by_cases h1 : now < g.time
      · rw [if_pos h1] at hx
        rcases ih _ _ _ _ x hx with h2 | ⟨g', hg', h3⟩
        · rcases List.mem_append.mp h2 with h3 | h3
          · exact Or.inl h3
          · exact Or.inr ⟨g, List.mem_cons_self g rest, Or.inl (List.mem_singleton.mp h3)⟩
        · exact Or.inr ⟨g', List.mem_cons_of_mem _ hg', h3⟩
      · rw [if_neg h1] at hx
        rcases ih _ _ _ _ x hx with h2 | ⟨g', hg', h3⟩
        · rcases List.mem_append.mp h2 with h3 | h3
          · exact Or.inl h3
          · exact Or.inr ⟨g, List.mem_cons_self g rest, Or.inr (List.mem_singleton.mp h3)⟩
        · exact Or.inr ⟨g', List.mem_cons_of_mem _ hg', h3⟩

theorem GroupsOk_group_timer {s : CacheState} (now : Nat)
    (h : GroupsOk s.groups_pool s.routers_group) :
    GroupsOk (group_timer s now).1.groups_pool (group_timer s now).1.routers_group := by
  obtain ⟨hpool, hr⟩ := h
  unfold group_timer
  split
  rename_i gs expires freed tr hfold
  refine ⟨?_, hr⟩
  intro x hx
  have hgs : gs = (s.groups_pool.foldl (gt_step s.routers_group.portmap now)
      ([], now + HALF, 0, [])).1 := by rw [hfold]
  rw [hgs] at hx
  rcases gt_step_foldl_mem _ _ _ _ _ _ _ x hx with h1 | ⟨g', hg', h2 | h2⟩
  · cases h1
  · exact h2 ▸ hpool g' hg'
  · exact h2 ▸ consume_group_ok g'

theorem GroupsOk_router_timer {s : CacheState} (now : Nat)
    (h : GroupsOk s.groups_pool s.routers_group) :
    GroupsOk (router_timer s now).1.groups_pool (router_timer s now).1.routers_group := by
  obtain ⟨hpool, hr⟩ := h
  unfold router_timer
  split
  · split
    rename_i g2 freed hsweep
    have h1 : g2 = (router_sweep s.routers_group now).1 := by rw [hsweep]
    split
    · refine ⟨hpool, ?_, ?_⟩
      · rw [h1]; exact router_sweep_portmap_inv _ _
      · rw [h1, router_sweep_members_length]; exact hr.2
    · exact ⟨hpool, consume_group_ok _⟩
  · exact ⟨hpool, consume_group_ok _⟩

theorem GroupsOk_get_port {s : CacheState} (haddr now : Nat) (drvport : Int)
    (h : GroupsOk s.groups_pool s.routers_group) :
    GroupsOk (get_port s haddr now drvport).2.1.groups_pool
      (get_port s haddr now drvport).2.1.routers_group := by
  unfold get_port
  split
  · split
    · exact h
    · split <;> exact h
  · exact h

/-- Exhaustive description of the paths of `get_host`. -/
theorem get_host_spec {pool : List host_entry} {count ea time : Nat}
    {pool1 : List host_entry} {count1 : Nat} {r : Option host_entry}
    (h : get_host pool count ea time = (pool1, count1, r)) :
    (∃ h0, pool.find? (fun x => x.ea = ea) = some h0 ∧
      pool1 = pool ∧ count1 = count ∧ r = some h0) ∨
    (pool.find? (fun x => x.ea = ea) = none ∧
      ((count < HOST_POOL_SIZE ∧
        pool1 = pool ++ [{ time := 0, port := 0, ea := ea }] ∧ count1 = count ∧
        r = some { time := 0, port := 0, ea := ea }) ∨
       (¬count < HOST_POOL_SIZE ∧
        ((pool.find? (fun x => x.time < time) = none ∧
          pool1 = pool ∧ count1 = count ∧ r = none) ∨
         (∃ victim, pool.find? (fun x => x.time < time) = some victim ∧
          pool1 = pool.eraseP (fun x => decide (x.time < time)) ++ [{ victim with ea := ea }] ∧
          count1 = count ∧ r = some { victim with ea := ea }))))) := by
  unfold get_host at h
  rcases hf : pool.find? (fun x => x.ea = ea) with _ | h0
  · rw [hf] at h
    simp only at h
    by_cases hc : count < HOST_POOL_SIZE
    · rw [if_pos hc] at h
      injection h with h1 h
      injection h with h2 h3
      exact Or.inr ⟨hf, Or.inl ⟨hc, h1.symm, h2.symm, h3.symm⟩⟩
    · rw [if_neg hc] at h
      rcases hv : pool.find? (fun x => x.time < time) with _ | victim
      · rw [hv] at h
        injection h with h1 h
        injection h with h2 h3
        exact Or.inr ⟨hf, Or.inr ⟨hc, Or.inl ⟨hv, h1.symm, h2.symm, h3.symm⟩⟩⟩
      · rw [hv] at h
        injection h with h1 h
        injection h with h2 h3
        exact Or.inr ⟨hf, Or.inr ⟨hc, Or.inr ⟨victim, hv, h1.symm, h2.symm, h3.symm⟩⟩⟩
  · rw [hf] at h
    injection h with h1 h
    injection h with h2 h3
    exact Or.inl ⟨h0, hf, h1.symm, h2.symm, h3.symm⟩

theorem HostsOk_get_host {pool : List host_entry} {count ea time : Nat}
    {pool1 : List host_entry} {count1 : Nat} {r : Option host_entry}
    (hOk : HostsOk pool)
    (h : get_host pool count ea time = (pool1, count1, r)) : HostsOk pool1 := by
  have hn : (pool.map host_entry.ea).Nodup := hOk
  rcases get_host_spec h with
    ⟨h0, hf, rfl, rfl, _⟩ |
    ⟨hf, ⟨hlt, rfl, rfl, _⟩ | ⟨hge, ⟨hv, rfl, rfl, _⟩ | ⟨victim, hv, rfl, rfl, _⟩⟩⟩
  · exact hn
  · have hea : ea ∉ pool.map host_entry.ea := by
      rw [List.find?_eq_none] at hf
      intro hmem
      rcases List.mem_map.mp hmem with ⟨x, hx, rfl⟩
      exact hf x hx (by simp)
    show (((pool ++ [({ time := 0, port := 0, ea := ea } : host_entry)]).map host_entry.ea)).Nodup
    rw [List.map_append]
    simp only [List.map_cons, List.map_nil]
    rw [List.nodup_append]
    exact ⟨hn, List.nodup_singleton _, by simpa using hea⟩
  · exact hn
  · have hsub : List.Sublist
        ((pool.eraseP (fun x => decide (x.time < time))).map host_entry.ea)
        (pool.map host_entry.ea) := (List.eraseP_sublist pool).map _
    have hea : ea ∉ (pool.eraseP (fun x => decide (x.time < time))).map host_entry.ea := by
      rw [List.find?_eq_none] at hf
      intro hmem
      rcases List.mem_map.mp hmem with ⟨x, hx, hxea⟩
      exact hf x ((List.eraseP_sublist pool).mem hx) (by simp [hxea])
    show ((pool.eraseP (fun x => decide (x.time < time)) ++
        [({ victim with ea := ea } : host_entry)]).map host_entry.ea).Nodup
    rw [List.map_append]
    simp only [List.map_cons, List.map_nil]
    rw [List.nodup_append]
    exact ⟨hn.sublist hsub, List.nodup_singleton _, by simpa using hea⟩

theorem modify_host_length (l : List host_entry) (ea : Nat) (f : host_entry → host_entry) :
    (modify_host l ea f).length = l.length := by
  induction l with
  | nil => rfl
  | cons g rest ih =>
    unfold modify_host
    by_cases h : g.ea = ea
    · rw [if_pos h]
      simp
    · rw [if_neg h]
      simp [ih]

theorem HostsOk_modify_host {pool : List host_entry} (ea : Nat)
    (f : host_entry → host_entry) (hf : ∀ h, (f h).ea = h.ea)
    (hOk : HostsOk pool) : HostsOk (modify_host pool ea f) := by
  show ((modify_host pool ea f).map host_entry.ea).Nodup
  rw [modify_host_map_ea _ _ _ hf]
  exact hOk

theorem HostsOk_get_port {s : CacheState} (haddr now : Nat) (drvport : Int)
    (h : HostsOk s.hosts_pool) :
    HostsOk (get_port s haddr now drvport).2.1.hosts_pool := by
  unfold get_port
  split
  · rename_i pool1 count1 h0 hget
    split
    · exact HostsOk_get_host h hget
    · split
      · exact HostsOk_modify_host _ _ (fun _ => rfl) (HostsOk_get_host h hget)
      · exact HostsOk_get_host h hget
  · rename_i pool1 count1 hget
    exact HostsOk_get_host h hget

theorem add_member_hosts_eq (s : CacheState) (maddr addr : Nat) (port : Int) (timeout now : Nat) :
    (add_member s maddr addr port timeout now).2.1.hosts_pool = s.hosts_pool ∧
      (add_member s maddr addr port timeout now).2.1.hosts_count = s.hosts_count := by
  unfold add_member
  split
  · exact ⟨rfl, rfl⟩
  · split
    · exact ⟨rfl, rfl⟩
    · split
      · exact ⟨rfl, rfl⟩
      · exact ⟨rfl, rfl⟩

theorem del_member_hosts_eq (s : CacheState) (maddr addr : Nat) (port : Int) :
    (del_member s maddr addr port).2.1.hosts_pool = s.hosts_pool ∧
      (del_member s maddr addr port).2.1.hosts_count = s.hosts_count := by
  unfold del_member
  split
  · exact ⟨rfl, rfl⟩
  · split
    · exact ⟨rfl, rfl⟩
    · exact ⟨rfl, rfl⟩

theorem add_router_hosts_eq (s : CacheState) (addr : Nat) (port : Int) (timeout now : Nat) :
    (add_router s addr port timeout now).2.1.hosts_pool = s.hosts_pool ∧
      (add_router s addr port timeout now).2.1.hosts_count = s.hosts_count := by
  unfold add_router
  split
  · exact ⟨rfl, rfl⟩
  · exact ⟨rfl, rfl⟩

theorem expire_members_hosts_eq (s : CacheState) (maddr : Option Nat) (timeout now : Nat) :
    (expire_members s maddr timeout now).2.1.hosts_pool = s.hosts_pool ∧
      (expire_members s maddr timeout now).2.1.hosts_count = s.hosts_count := by
  unfold expire_members
  split
  · split
    · exact ⟨rfl, rfl⟩
    · exact ⟨rfl, rfl⟩
  · exact ⟨rfl, rfl⟩

theorem group_timer_hosts_eq (s : CacheState) (now : Nat) :
    (group_timer s now).1.hosts_pool = s.hosts_pool ∧
      (group_timer s now).1.hosts_count = s.hosts_count := by
  unfold group_timer
  split
  exact ⟨rfl, rfl⟩

theorem router_timer_hosts_eq (s : CacheState) (now : Nat) :
    (router_timer s now).1.hosts_pool = s.hosts_pool ∧
      (router_timer s now).1.hosts_count = s.hosts_count := by
  unfold router_timer
  split
  · split
    split
    · exact ⟨rfl, rfl⟩
    · exact ⟨rfl, rfl⟩
  · exact ⟨rfl, rfl⟩

/-- The cache invariant holds in every reachable state. -/
theorem Reachable_CacheInv {s : CacheState} (h : Reachable s) : CacheInv s := by
  induction h with
  | init =>
      refine ⟨⟨?_, ?_, ?_⟩, ?_⟩
      · intro g hg; cases hg
      · exact (get_portmap_empty _ rfl).symm
      · simp [init_cache, fresh_group_entry]
      · simp [HostsOk, init_cache]
  | step_get_port haddr now drvport _ ih =>
      exact ⟨GroupsOk_get_port haddr now drvport ih.1, HostsOk_get_port haddr now drvport ih.2⟩
  | step_add_member maddr addr port timeout now _ ih =>
      refine ⟨GroupsOk_add_member maddr addr port timeout now ih.1, ?_⟩
      obtain ⟨h1, h2⟩ := add_member_hosts_eq _ maddr addr port timeout now
      rw [HostsOk, h1]
      exact ih.2
  | step_del_member maddr addr port _ ih =>
      refine ⟨GroupsOk_del_member maddr addr port ih.1, ?_⟩
      obtain ⟨h1, h2⟩ := del_member_hosts_eq _ maddr addr port
      rw [HostsOk, h1]
      exact ih.2
  | step_add_router addr port timeout now _ ih =>
      refine ⟨GroupsOk_add_router addr port timeout now ih.1, ?_⟩
      obtain ⟨h1, h2⟩ := add_router_hosts_eq _ addr port timeout now
      rw [HostsOk, h1]
      exact ih.2
  | step_expire_members maddr timeout now _ ih =>
      refine ⟨GroupsOk_expire_members maddr timeout now ih.1, ?_⟩
      obtain ⟨h1, h2⟩ := expire_members_hosts_eq _ maddr timeout now
      rw [HostsOk, h1]
      exact ih.2
  | step_group_timer now _ ih =>
      refine ⟨GroupsOk_group_timer now ih.1, ?_⟩
      obtain ⟨h1, h2⟩ := group_timer_hosts_eq _ now
      rw [HostsOk, h1]
      exact ih.2
  | step_router_timer now _ ih =>
      refine ⟨GroupsOk_router_timer now ih.1, ?_⟩
      obtain ⟨h1, h2⟩ := router_timer_hosts_eq _ now
      rw [HostsOk, h1]
      exact ih.2

/-- C1: in every reachable state (hence after every public operation:
`get_port`, `add_member`, `del_member`, `add_router`, `expire_members`,
the group sweep and the router sweep), every group entry -- the singleton
router state included -- has `portmap` equal to the OR over all ports
p in 0..PORT_MAX of bit p exactly when the membership list for p is
non-empty. -/
theorem C1_bitmask_is_recomputed_or {s : CacheState} (h : Reachable s) :
    (∀ g ∈ s.groups_pool, ∀ p : Nat,
        g.portmap.testBit p =
          (decide (p ≤ PORT_MAX) && decide (g.members.getD p [] ≠ []))) ∧
    (∀ p : Nat, s.routers_group.portmap.testBit p =
        (decide (p ≤ PORT_MAX) && decide (s.routers_group.members.getD p [] ≠ []))) := by
  obtain ⟨⟨hpool, hr, _⟩, _⟩ := Reachable_CacheInv h
  constructor
  · intro g hg p
    rw [(hpool g hg).1, get_portmap_testBit]
    congr 1
    simp [Nat.lt_succ_iff]
  · intro p
    rw [hr, get_portmap_testBit]
    congr 1
    simp [Nat.lt_succ_iff]

/-- Witness for C1 at the reachable state obtained by one `add_member`
followed by one `add_router` from a fresh cache. -/
theorem C1_bitmask_is_recomputed_or_witness :
    (∀ g ∈ (add_router (add_member init_cache 100 5 2 5 0).2.1 1 0 10 0).2.1.groups_pool,
        ∀ p : Nat,
        g.portmap.testBit p =
          (decide (p ≤ PORT_MAX) && decide (g.members.getD p [] ≠ []))) ∧
    (∀ p : Nat,
        (add_router (add_member init_cache 100 5 2 5 0).2.1 1 0 10 0).2.1.routers_group.portmap.testBit p =
          (decide (p ≤ PORT_MAX) &&
            decide ((add_router (add_member init_cache 100 5 2 5 0).2.1 1 0 10 0).2.1.routers_group.members.getD p [] ≠ []))) :=
  C1_bitmask_is_recomputed_or
    (Reachable.step_add_router 1 0 10 0 (Reachable.step_add_member 100 5 2 5 0 Reachable.init))

theorem Reachable_foldl_get_port (l : List Nat) (s0 : CacheState) (h : Reachable s0)
    (t : Nat) (d : Int) :
    Reachable (l.foldl (fun s i => (get_port s i t d).2.1) s0) := by
  induction l generalizing s0 with
  | nil => exact h
  | cons x xs ih =>
    rw [List.foldl_cons]
    exact ih _ (Reachable.step_get_port x t d h)

set_option maxRecDepth 100000 in
/-- C3 (code bug): `c3_state` is reachable by 33 `resolve_port` calls for
33 distinct MACs from a fresh cache, yet it holds 33 live host entries --
more than `HOST_POOL_SIZE` -- while `hosts.count` is still 0, because
cache.c lines 112 to 114 increment the count only when `calloc` fails, so
the capacity gate of line 108 never engages.  The per-MAC uniqueness half
of the claim does hold (last conjunct). -/
theorem C3_host_pool_bound_violated :
    Reachable c3_state ∧
    c3_state.hosts_count = 0 ∧
    c3_state.hosts_pool.length = 33 ∧
    HOST_POOL_SIZE < c3_state.hosts_pool.length ∧
    (c3_state.hosts_pool.map host_entry.ea).Nodup := by
  refine ⟨Reachable_foldl_get_port _ _ Reachable.init 5 2, ?_, ?_, ?_, ?_⟩
  · rfl
  · rfl
  · decide
  · decide

/-- C2 (code bug, spec section 9): when the full host pool recycles the
expired slot of MAC 1 for the new MAC 999, the reused record is not reset:
the C `memset(&host, 0, sizeof(*host))` clears the pointer variable, not
the record, so under the defined-data reading of `get_host` the new MAC's
entry still carries the prior occupant's cached `port = 3` and `time = 0`. -/
theorem C2_recycled_slot_keeps_prior_fields :
    (get_host c2_pool 32 999 5).2.2 = some { time := 0, port := 3, ea := 999 } ∧
      { time := 0, port := 3, ea := 999 } ∈ (get_host c2_pool 32 999 5).1 := by
  constructor
  · rfl
  · decide

theorem get_host_find? {pool : List host_entry} {count ea time : Nat}
    {pool1 : List host_entry} {count1 : Nat} {h0 : host_entry}
    (h : get_host pool count ea time = (pool1, count1, some h0)) :
    pool1.find? (fun x => x.ea = ea) = some h0 := by
  rcases get_host_spec h with
    ⟨h1, hf, rfl, rfl, hr⟩ |
    ⟨hf, ⟨hlt, rfl, rfl, hr⟩ | ⟨hge, ⟨hv, rfl, rfl, hr⟩ | ⟨victim, hv, rfl, rfl, hr⟩⟩⟩
  · injection hr with hr
    rw [hf, hr]
  · injection hr with hr
    rw [List.find?_append, hf, hr]
    simp [List.find?]
  · cases hr
  · injection hr with hr
    rw [List.find?_append, find?_eraseP_none hf, hr]
    simp [List.find?]

theorem get_port_fast_path {s1 : CacheState} {mac t2 : Nat} {d2 : Int} {h : host_entry}
    (hf : s1.hosts_pool.find? (fun x => x.ea = mac) = some h) (ht : t2 ≤ h.time) :
    get_port s1 mac t2 d2 = (h.port, s1, []) := by
  unfold get_port get_host
  simp only [hf]
  rw [if_pos ht]

theorem get_port_stale_queries {s1 : CacheState} {mac t2 : Nat} {d2 : Int} {h : host_entry}
    (hf : s1.hosts_pool.find? (fun x => x.ea = mac) = some h) (ht : h.time < t2) :
    (get_port s1 mac t2 d2).2.2 = [drv_call.query_port mac] := by
  unfold get_port get_host
  simp only [hf]
  rw [if_neg (by omega : ¬ t2 ≤ h.time)]
  split <;> rfl

theorem get_port_at_most_one_query (s : CacheState) (mac t : Nat) (d : Int) :
    ((get_port s mac t d).2.2).length ≤ 1 := by
  unfold get_port
  split
  · split
    · simp
    · split <;> simp
  · simp

/-- C8: once a `resolve_port` call at tick `t1` has queried the driver for
a MAC with a stale or fresh slot available and cached a valid answer, any
second call for that MAC at `t2 ≤ t1 + HOST_TTL` (in ticks) returns the
cached port, changes nothing and issues no driver query; the first call at
`t2 > t1 + HOST_TTL` queries the driver again; and no `resolve_port` call
ever issues more than one driver query. -/
theorem C8_host_ttl_query_discipline (s : CacheState) (mac t1 : Nat) (d1 : Int)
    (pool1 : List host_entry) (count1 : Nat) (h0 : host_entry)
    (hget : get_host s.hosts_pool s.hosts_count mac t1 = (pool1, count1, some h0))
    (hstale : h0.time < t1)
    (hvalid : 0 ≤ d1 ∧ d1 ≤ (PORT_MAX : Int)) :
    (get_port s mac t1 d1).1 = d1 ∧
    (get_port s mac t1 d1).2.2 = [drv_call.query_port mac] ∧
    (∀ t2 d2, t2 ≤ t1 + HOST_TTL * TIMER_HZ →
      get_port (get_port s mac t1 d1).2.1 mac t2 d2 =
        (d1, (get_port s mac t1 d1).2.1, [])) ∧
    (∀ t2 d2, t1 + HOST_TTL * TIMER_HZ < t2 →
      (get_port (get_port s mac t1 d1).2.1 mac t2 d2).2.2 = [drv_call.query_port mac]) ∧
    (∀ (s2 : CacheState) (mac2 t : Nat) (d : Int),
      ((get_port s2 mac2 t d).2.2).length ≤ 1) := by
  have hfind1 : pool1.find? (fun x => x.ea = mac) = some h0 := get_host_find? hget
  have hmod : (modify_host pool1 mac
        (fun h => { h with port := d1, time := t1 + HOST_TTL * TIMER_HZ })).find?
        (fun x => x.ea = mac) =
      some { h0 with port := d1, time := t1 + HOST_TTL * TIMER_HZ } := by
    rw [modify_host_find? pool1 mac
          (fun h => { h with port := d1, time := t1 + HOST_TTL * TIMER_HZ })
          (fun _ => rfl), hfind1]
    rfl
  have hrun : get_port s mac t1 d1 =
      (d1,
       { s with hosts_count := count1,
                hosts_pool := modify_host pool1 mac
                  (fun h => { h with port := d1, time := t1 + HOST_TTL * TIMER_HZ }) },
       [drv_call.query_port mac]) := by
    unfold get_port
    simp only [hget]
    rw [if_neg (by omega : ¬ t1 ≤ h0.time), if_pos hvalid]
  refine ⟨by rw [hrun], by rw [hrun], ?_, ?_, get_port_at_most_one_query⟩
  · intro t2 d2 ht2
    rw [hrun]
    exact get_port_fast_path
      (h := { h0 with port := d1, time := t1 + HOST_TTL * TIMER_HZ }) hmod ht2
  · intro t2 d2 ht2
    rw [hrun]
    exact get_port_stale_queries
      (h := { h0 with port := d1, time := t1 + HOST_TTL * TIMER_HZ }) hmod ht2

/-- Witness for C8: a fresh cache, MAC 42 first resolved at tick 1 with
driver answer port 3. -/
theorem C8_host_ttl_query_discipline_witness :
    (get_port init_cache 42 1 3).1 = 3 ∧
    (get_port init_cache 42 1 3).2.2 = [drv_call.query_port 42] ∧
    (∀ t2 d2, t2 ≤ 1 + HOST_TTL * TIMER_HZ →
      get_port (get_port init_cache 42 1 3).2.1 42 t2 d2 =
        (3, (get_port init_cache 42 1 3).2.1, [])) ∧
    (∀ t2 d2, 1 + HOST_TTL * TIMER_HZ < t2 →
      (get_port (get_port init_cache 42 1 3).2.1 42 t2 d2).2.2 =
        [drv_call.query_port 42]) ∧
    (∀ (s2 : CacheState) (mac2 t : Nat) (d : Int),
      ((get_port s2 mac2 t d).2.2).length ≤ 1) :=
  C8_host_ttl_query_discipline init_cache 42 1 3
    [{ time := 0, port := 0, ea := 42 }] 0 { time := 0, port := 0, ea := 42 }
    (by rfl) (by decide) (by constructor <;> decide)

theorem deact_testBit (a b q : Nat) :
    ((a ^^^ b) &&& a).testBit q = (a.testBit q && !(b.testBit q)) := by
  rw [Nat.testBit_and, Nat.testBit_xor]
  cases a.testBit q <;> cases b.testBit q <;> rfl

theorem newly_set_testBit (a b q : Nat) :
    ((a ^^^ b) &&& b).testBit q = (b.testBit q && !(a.testBit q)) := by
  rw [Nat.testBit_and, Nat.testBit_xor]
  cases a.testBit q <;> cases b.testBit q <;> rfl

theorem modify_group_find?_const (l : List group_entry) (ea : Nat) (g' : group_entry)
    (hg' : g'.ea = ea) :
    (modify_group l ea (fun _ => g')).find? (fun g => g.ea = ea) =
      (l.find? (fun g => g.ea = ea)).map (fun _ => g') := by
  induction l with
  | nil => rfl
  | cons g rest ih =>
    unfold modify_group
    by_cases h : g.ea = ea
    · rw [if_pos h, List.find?_cons_of_pos _ (by simp [hg']),
          List.find?_cons_of_pos _ (by simp [h])]
      rfl
    · rw [if_neg h, List.find?_cons_of_neg _ (by simp [h]),
          List.find?_cons_of_neg _ (by simp [h]), ih]

/-- C4 counterexample: on `c4_state`, removing group 5's only member (on
port 2, which is also an active router port) turns bit 2 of the group's
bitmask from 1 to 0, yet `del_member` returns 0, not bitmask 4: the
router-port exclusion of cache.c line 415 is applied to the returned
value, not only to the mask reported to the driver. -/
theorem C4_cex_return_excludes_router_ports :
    group_portmap c4_state 5 = 4 ∧
    group_portmap (del_member c4_state 5 7 2).2.1 5 = 0 ∧
    (del_member c4_state 5 7 2).1 = 0 ∧
    ¬(del_member c4_state 5 7 2).1 = 4 := by
  refine ⟨rfl, rfl, rfl, ?_⟩
  decide

/-- C4 (amended): for every `remove_member` call with a valid port on an
existing group, the deactivated bits (1 before, 0 after) are computed and
the router ports are then excluded from them; the value returned to the
caller is that router-excluded mask, and the driver is instructed to clear
exactly the same mask (when it is non-zero).  The exclusion thus applies
both to the driver mask and to the return value. -/
theorem C4_return_equals_router_excluded_clear (s : CacheState) (maddr addr : Nat)
    (port : Int) (g0 : group_entry)
    (hp : ¬(port < 0 ∨ (PORT_MAX : Int) < port))
    (hf : s.groups_pool.find? (fun g => g.ea = maddr) = some g0) :
    (∀ q : Nat,
      ((group_portmap s maddr ^^^ group_portmap (del_member s maddr addr port).2.1 maddr) &&&
          group_portmap s maddr).testBit q =
        ((group_portmap s maddr).testBit q &&
          !((group_portmap (del_member s maddr addr port).2.1 maddr).testBit q))) ∧
    (del_member s maddr addr port).1 =
      Int.ofNat (land_not
        ((group_portmap s maddr ^^^ group_portmap (del_member s maddr addr port).2.1 maddr) &&&
          group_portmap s maddr)
        s.routers_group.portmap) ∧
    (del_member s maddr addr port).2.2 =
      (if land_not
           ((group_portmap s maddr ^^^ group_portmap (del_member s maddr addr port).2.1 maddr) &&&
             group_portmap s maddr)
           s.routers_group.portmap ≠ 0
       then [drv_call.del_portmap maddr
              (land_not
                ((group_portmap s maddr ^^^ group_portmap (del_member s maddr addr port).2.1 maddr) &&&
                  group_portmap s maddr)
                s.routers_group.portmap)]
       else []) := by
  have heag0 : g0.ea = maddr := by simpa using List.find?_some hf
  have hret : (del_member s maddr addr port).1 =
      Int.ofNat (land_not
        ((g0.portmap ^^^ (upd_group_del g0 addr port.toNat).1.portmap) &&& g0.portmap)
        s.routers_group.portmap) := by
    unfold del_member
    rw [if_neg hp, hf]
  have htr : (del_member s maddr addr port).2.2 =
      (if land_not ((g0.portmap ^^^ (upd_group_del g0 addr port.toNat).1.portmap) &&& g0.portmap)
           s.routers_group.portmap ≠ 0
       then [drv_call.del_portmap maddr
              (land_not
                ((g0.portmap ^^^ (upd_group_del g0 addr port.toNat).1.portmap) &&& g0.portmap)
                s.routers_group.portmap)]
       else []) := by
    unfold del_member
    rw [if_neg hp, hf]
  have hpool : (del_member s maddr addr port).2.1.groups_pool =
      modify_group s.groups_pool maddr (fun _ =>
        if ((g0.portmap ^^^ (upd_group_del g0 addr port.toNat).1.portmap) &&& g0.portmap) ≠ 0 ∧
           (upd_group_del g0 addr port.toNat).1.portmap = 0
        then consume_group (upd_group_del g0 addr port.toNat).1
        else (upd_group_del g0 addr port.toNat).1) := by
    unfold del_member
    rw [if_neg hp, hf]
  have hbefore : group_portmap s maddr = g0.portmap := by
    unfold group_portmap
    rw [hf]
    rfl
  have hg'ea : (if ((g0.portmap ^^^ (upd_group_del g0 addr port.toNat).1.portmap) &&& g0.portmap) ≠ 0 ∧
        (upd_group_del g0 addr port.toNat).1.portmap = 0
      then consume_group (upd_group_del g0 addr port.toNat).1
      else (upd_group_del g0 addr port.toNat).1).ea = maddr := by
    split
    · show (upd_group_del g0 addr port.toNat).1.ea = maddr
      rw [upd_group_del_ea, heag0]
    · rw [upd_group_del_ea, heag0]
  have hafter : group_portmap (del_member s maddr addr port).2.1 maddr =
      (upd_group_del g0 addr port.toNat).1.portmap := by
    unfold group_portmap
    rw [hpool, modify_group_find?_const _ _ _ hg'ea, hf]
    show (if ((g0.portmap ^^^ (upd_group_del g0 addr port.toNat).1.portmap) &&& g0.portmap) ≠ 0 ∧
        (upd_group_del g0 addr port.toNat).1.portmap = 0
      then consume_group (upd_group_del g0 addr port.toNat).1
      else (upd_group_del g0 addr port.toNat).1).portmap = _
    split
    · rename_i hC
      show (0 : Nat) = _
      exact hC.2.symm
    · rfl
  refine ⟨fun q => deact_testBit _ _ q, ?_, ?_⟩
  · rw [hbefore, hafter, hret]
  · rw [hbefore, hafter, htr]

/-- Witness for the amended C4 on `c4_state`: the only deactivated bit
(port 2) is router-held, so the returned mask and the driver trace are
both empty. -/
theorem C4_return_equals_router_excluded_clear_witness :
    (∀ q : Nat,
      ((group_portmap c4_state 5 ^^^ group_portmap (del_member c4_state 5 7 2).2.1 5) &&&
          group_portmap c4_state 5).testBit q =
        ((group_portmap c4_state 5).testBit q &&
          !((group_portmap (del_member c4_state 5 7 2).2.1 5).testBit q))) ∧
    (del_member c4_state 5 7 2).1 =
      Int.ofNat (land_not
        ((group_portmap c4_state 5 ^^^ group_portmap (del_member c4_state 5 7 2).2.1 5) &&&
          group_portmap c4_state 5)
        c4_state.routers_group.portmap) ∧
    (del_member c4_state 5 7 2).2.2 =
      (if land_not
           ((group_portmap c4_state 5 ^^^ group_portmap (del_member c4_state 5 7 2).2.1 5) &&&
             group_portmap c4_state 5)
           c4_state.routers_group.portmap ≠ 0
       then [drv_call.del_portmap 5
              (land_not
                ((group_portmap c4_state 5 ^^^ group_portmap (del_member c4_state 5 7 2).2.1 5) &&&
                  group_portmap c4_state 5)
                c4_state.routers_group.portmap)]
       else []) :=
  C4_return_equals_router_excluded_clear c4_state 5 7 2 _ (by decide) (by rfl)

/-- C5: for every `add_member` call with a valid port in which a group
slot is obtained and the member is inserted or refreshed, the return value
is exactly the bits that were 0 in the group's bitmask before the call and
are 1 after it, and the driver receives an add-ports instruction exactly
when that set is non-empty, with mask equal to those bits OR the current
router-port bitmask. -/
theorem C5_add_member_reports_newly_set_bits (s : CacheState) (maddr addr : Nat)
    (port : Int) (timeout now : Nat)
    (pool1 : List group_entry) (count1 : Nat) (tr1 : List drv_call) (g0 : group_entry)
    (hp : ¬(port < 0 ∨ (PORT_MAX : Int) < port))
    (halloc : get_group_alloc s.groups_pool s.groups_count maddr = some (pool1, count1, tr1))
    (hfind : pool1.find? (fun g => g.ea = maddr) = some g0)
    (hmem : (member_insert (g0.members.getD port.toNat []) addr
        s.members_free s.members_count).isSome = true) :
    (∀ q : Nat,
      ((group_portmap s maddr ^^^ group_portmap (add_member s maddr addr port timeout now).2.1 maddr) &&&
          group_portmap (add_member s maddr addr port timeout now).2.1 maddr).testBit q =
        ((group_portmap (add_member s maddr addr port timeout now).2.1 maddr).testBit q &&
          !((group_portmap s maddr).testBit q))) ∧
    (add_member s maddr addr port timeout now).1 =
      Int.ofNat
        ((group_portmap s maddr ^^^ group_portmap (add_member s maddr addr port timeout now).2.1 maddr) &&&
          group_portmap (add_member s maddr addr port timeout now).2.1 maddr) ∧
    (add_member s maddr addr port timeout now).2.2.filter is_add_call =
      (if ((group_portmap s maddr ^^^ group_portmap (add_member s maddr addr port timeout now).2.1 maddr) &&&
            group_portmap (add_member s maddr addr port timeout now).2.1 maddr) ≠ 0
       then [drv_call.add_portmap maddr
              (((group_portmap s maddr ^^^ group_portmap (add_member s maddr addr port timeout now).2.1 maddr) &&&
                 group_portmap (add_member s maddr addr port timeout now).2.1 maddr) |||
                s.routers_group.portmap)]
       else []) := by
  have heag0 : g0.ea = maddr := by simpa using List.find?_some hfind
  have hret : (add_member s maddr addr port timeout now).1 =
      Int.ofNat ((g0.portmap ^^^
          (upd_group_add g0 addr port.toNat (now + timeout) s.members_free s.members_count).1.portmap) &&&
        (upd_group_add g0 addr port.toNat (now + timeout) s.members_free s.members_count).1.portmap) := by
    unfold add_member
    rw [if_neg hp]
    simp only [halloc, hfind]
  have htr : (add_member s maddr addr port timeout now).2.2 =
      tr1 ++ (if ((g0.portmap ^^^
            (upd_group_add g0 addr port.toNat (now + timeout) s.members_free s.members_count).1.portmap) &&&
          (upd_group_add g0 addr port.toNat (now + timeout) s.members_free s.members_count).1.portmap) ≠ 0
        then [drv_call.add_portmap maddr
          (((g0.portmap ^^^
              (upd_group_add g0 addr port.toNat (now + timeout) s.members_free s.members_count).1.portmap) &&&
            (upd_group_add g0 addr port.toNat (now + timeout) s.members_free s.members_count).1.portmap) |||
            s.routers_group.portmap)]
        else []) := by
    unfold add_member
    rw [if_neg hp]
    simp only [halloc, hfind]
  have hpool : (add_member s maddr addr port timeout now).2.1.groups_pool =
      modify_group pool1 maddr (fun _ =>
        (upd_group_add g0 addr port.toNat (now + timeout) s.members_free s.members_count).1) := by
    unfold add_member
    rw [if_neg hp]
    simp only [halloc, hfind]
  have hafter : group_portmap (add_member s maddr addr port timeout now).2.1 maddr =
      (upd_group_add g0 addr port.toNat (now + timeout) s.members_free s.members_count).1.portmap := by
    unfold group_portmap
    rw [hpool, modify_group_find?_const _ _ _ (by rw [upd_group_add_ea]; exact heag0), hfind]
    rfl
  have hbefore : group_portmap s maddr = g0.portmap := by
    rcases get_group_alloc_spec halloc with
      ⟨g1, hf, rfl, _, _⟩ |
      ⟨hf, ⟨_, rfl, _, _⟩ | ⟨_, v, hv, rfl, _, _⟩⟩
    · unfold group_portmap
      rw [hf]
      rw [hf] at hfind
      injection hfind with hfind
      rw [hfind]
      rfl
    · unfold group_portmap
      rw [hf]
      rw [List.find?_append, hf,
          List.find?_cons_of_pos _ (by simp)] at hfind
      simp only [Option.none_or] at hfind
      injection hfind with hfind
      rw [← hfind]
      rfl
    · unfold group_portmap
      rw [hf]
      rw [List.find?_append, find?_eraseP_none hf,
          List.find?_cons_of_pos _ (by simp)] at hfind
      simp only [Option.none_or] at hfind
      injection hfind with hfind
      rw [← hfind]
      rfl
  have hfiltr1 : tr1.filter is_add_call = [] := by
    rcases get_group_alloc_spec halloc with
      ⟨g1, _, _, _, rfl⟩ | ⟨_, ⟨_, _, _, rfl⟩ | ⟨_, v, _, _, _, rfl⟩⟩
    · rfl
    · rfl
    · rfl
  refine ⟨fun q => newly_set_testBit _ _ q, ?_, ?_⟩
  · rw [hbefore, hafter, hret]
  · rw [hbefore, hafter, htr, List.filter_append, hfiltr1, List.nil_append]
    split
    · rfl
    · rfl

/-- Witness for C5: the very first `add_member` on a fresh cache (group
MAC 100, address 5, port 2). -/
theorem C5_add_member_reports_newly_set_bits_witness :
    (∀ q : Nat,
      ((group_portmap init_cache 100 ^^^ group_portmap (add_member init_cache 100 5 2 5 0).2.1 100) &&&
          group_portmap (add_member init_cache 100 5 2 5 0).2.1 100).testBit q =
        ((group_portmap (add_member init_cache 100 5 2 5 0).2.1 100).testBit q &&
          !((group_portmap init_cache 100).testBit q))) ∧
    (add_member init_cache 100 5 2 5 0).1 =
      Int.ofNat
        ((group_portmap init_cache 100 ^^^ group_portmap (add_member init_cache 100 5 2 5 0).2.1 100) &&&
          group_portmap (add_member init_cache 100 5 2 5 0).2.1 100) ∧
    (add_member init_cache 100 5 2 5 0).2.2.filter is_add_call =
      (if ((group_portmap init_cache 100 ^^^ group_portmap (add_member init_cache 100 5 2 5 0).2.1 100) &&&
            group_portmap (add_member init_cache 100 5 2 5 0).2.1 100) ≠ 0
       then [drv_call.add_portmap 100
              (((group_portmap init_cache 100 ^^^ group_portmap (add_member init_cache 100 5 2 5 0).2.1 100) &&&
                 group_portmap (add_member init_cache 100 5 2 5 0).2.1 100) |||
                init_cache.routers_group.portmap)]
       else []) :=
  C5_add_member_reports_newly_set_bits init_cache 100 5 2 5 0
    [{ fresh_group_entry with ea := 100 }] 1 [] { fresh_group_entry with ea := 100 }
    (by decide) (by rfl) (by rfl) (by rfl)

theorem set_getD_self {α : Type} (l : List α) (n : Nat) (d : α) (h : n < l.length) :
    l.set n (l.getD n d) = l := by
  induction l generalizing n with
  | nil => cases h
  | cons a t ih =>
    cases n with
    | zero => rfl
    | succ m =>
      have hm : m < t.length := by simpa using h
      show a :: t.set m ((a :: t).getD (m + 1) d) = a :: t
      rw [List.getD_cons_succ, ih m hm]

theorem getD_set_self {α : Type} (l : List α) (n : Nat) (a d : α) (h : n < l.length) :
    (l.set n a).getD n d = a := by
  rw [List.getD_eq_getElem?_getD, List.getElem?_set]
  simp [h]

theorem getD_replicate_nil (n i : Nat) :
    (List.replicate n ([] : List member_entry)).getD i [] = [] := by
  rw [List.getD_eq_getElem?_getD, List.getElem?_replicate]
  split <;> rfl

theorem land_not_zero (b : Nat) : land_not 0 b = 0 := by
  simp [land_not]

theorem del_member_no_group (s : CacheState) (maddr addr : Nat) (port : Int)
    (hp : ¬(port < 0 ∨ (PORT_MAX : Int) < port))
    (hnone : s.groups_pool.find? (fun g => g.ea = maddr) = none) :
    del_member s maddr addr port = (0, s, []) := by
  unfold del_member
  rw [if_neg hp, hnone]

theorem del_member_noop (s : CacheState) (maddr addr : Nat) (port : Int) (g0 : group_entry)
    (hp : ¬(port < 0 ∨ (PORT_MAX : Int) < port))
    (hfind : s.groups_pool.find? (fun g => g.ea = maddr) = some g0)
    (hinv : g0.portmap = get_portmap g0)
    (hlen : port.toNat < g0.members.length)
    (habs : (g0.members.getD port.toNat []).any (fun m => m.addr = addr) = false) :
    del_member s maddr addr port = (0, s, []) := by
  have hupd : upd_group_del g0 addr port.toNat = (g0, false) := by
    unfold upd_group_del
    simp only [habs, Bool.false_eq_true, if_false, set_getD_self _ _ _ hlen]
    show ({ g0 with portmap := get_portmap g0 }, false) = (g0, false)
    rw [← hinv]
  unfold del_member
  rw [if_neg hp]
  simp only [hfind, hupd, Nat.xor_self, Nat.zero_and, land_not_zero, ne_eq,
    not_true_eq_false, false_and, if_false, Bool.false_eq_true, Nat.add_zero,
    Int.ofNat_zero]
  rw [modify_group_self _ _ hfind]
  rfl

theorem expire_members_no_group (s : CacheState) (ea timeout now : Nat)
    (hnone : s.groups_pool.find? (fun g => g.ea = ea) = none) :
    expire_members s (some ea) timeout now = (-1, s, []) := by
  unfold expire_members
  simp only [hnone]

/-- C9 counterexample: `expire_members` on a fresh cache for the absent
group MAC 5 returns −1 -- the same value `add_member` uses to report its
invalid-port error -- so `force_expire` on a non-existent group does
report an error code to the caller, contrary to the claim. -/
theorem C9_cex_force_expire_reports_error :
    (expire_members init_cache (some 5) 3 0).1 = -1 ∧
      (add_member init_cache 100 5 (-1) 5 0).1 = -1 := by
  exact ⟨rfl, rfl⟩

/-- C9 (amended): deleting a non-existent member (absent group, or absent
address on the port list) is a complete no-op: `remove_member` returns
bitmask 0, the state is unchanged and no driver call is made.
`force_expire` on a non-existent group MAC likewise changes no state and
makes no driver call, but it returns −1 (an error code) to the caller
rather than succeeding silently. -/
theorem C9_lookup_miss_behaviour :
    (∀ (s : CacheState) (maddr addr : Nat) (port : Int),
      ¬(port < 0 ∨ (PORT_MAX : Int) < port) →
      s.groups_pool.find? (fun g => g.ea = maddr) = none →
      del_member s maddr addr port = (0, s, [])) ∧
    (∀ (s : CacheState) (maddr addr : Nat) (port : Int) (g0 : group_entry),
      ¬(port < 0 ∨ (PORT_MAX : Int) < port) →
      s.groups_pool.find? (fun g => g.ea = maddr) = some g0 →
      g0.portmap = get_portmap g0 →
      port.toNat < g0.members.length →
      (g0.members.getD port.toNat []).any (fun m => m.addr = addr) = false →
      del_member s maddr addr port = (0, s, [])) ∧
    (∀ (s : CacheState) (ea timeout now : Nat),
      s.groups_pool.find? (fun g => g.ea = ea) = none →
      expire_members s (some ea) timeout now = (-1, s, [])) :=
  ⟨del_member_no_group, del_member_noop, expire_members_no_group⟩

/-- Witness for C9: removing a member of the absent group 6 on a fresh
cache, removing the absent address 8 from group 5 of `c4_state`, and
fast-expiring the absent group 6 on a fresh cache. -/
theorem C9_lookup_miss_behaviour_witness :
    del_member init_cache 6 8 2 = (0, init_cache, []) ∧
    del_member c4_state 5 8 2 = (0, c4_state, []) ∧
    expire_members init_cache (some 6) 3 0 = (-1, init_cache, []) :=
  ⟨C9_lookup_miss_behaviour.1 init_cache 6 8 2 (by decide) (by rfl),
   C9_lookup_miss_behaviour.2.1 c4_state 5 8 2
     { members := (List.replicate (PORT_MAX + 1) []).set 2 [{ time := 100, addr := 7 }],
       time := 100, portmap := 4, ea := 5 }
     (by decide) (by rfl) (by decide) (by decide) (by decide),
   C9_lookup_miss_behaviour.2.2 init_cache 6 3 0 (by rfl)⟩

theorem get_portmap_zero_of_forall_nil (g : group_entry)
    (h : ∀ q, g.members.getD q [] = []) : get_portmap g = 0 := by
  apply Nat.eq_of_testBit_eq
  intro q
  rw [get_portmap_testBit, Nat.zero_testBit, h q]
  simp

theorem upd_group_del_members (g0 : group_entry) (addr p : Nat) :
    (upd_group_del g0 addr p).1.members =
      g0.members.set p
        (if (g0.members.getD p []).any (fun m => m.addr = addr) = true
         then (g0.members.getD p []).eraseP (fun m => decide (m.addr = addr))
         else g0.members.getD p []) := rfl

theorem member_insert_nil_cases (addr free count : Nat) :
    member_insert [] addr free count = none ∨
    ∃ f1 c1, member_insert [] addr free count =
      some ([{ time := 0, addr := addr }], f1, c1) := by
  by_cases hf : 0 < free
  · exact Or.inr ⟨free - 1, count, by
      unfold member_insert
      rw [if_neg (by simp), if_pos hf]⟩
  · by_cases hc : count < MEMBER_POOL_SIZE
    · exact Or.inr ⟨free, count + 1, by
        unfold member_insert
        rw [if_neg (by simp), if_neg hf, if_pos hc]⟩
    · exact Or.inl (by
        unfold member_insert
        rw [if_neg (by simp), if_neg hf, if_neg hc])

theorem upd_group_add_empty (g0 : group_entry) (addr p gtime free count : Nat)
    (hm : g0.members = List.replicate (PORT_MAX + 1) []) :
    ∃ l2, (upd_group_add g0 addr p gtime free count).1.members =
        (List.replicate (PORT_MAX + 1) []).set p l2 ∧
      (l2 = [] ∨ l2 = [{ time := gtime, addr := addr }]) := by
  have h1 : (upd_group_add g0 addr p gtime free count).1.members =
      g0.members.set p
        (match member_insert (g0.members.getD p []) addr free count with
         | some (l1, _, _) => refresh_member l1 addr gtime
         | none => g0.members.getD p []) := by
    unfold upd_group_add
    rcases hmi : member_insert (g0.members.getD p []) addr free count with _ | ⟨l1, f1, c1⟩ <;>
      simp only [hmi]
  rw [hm, getD_replicate_nil] at h1
  rcases member_insert_nil_cases addr free count with hmi | ⟨f1, c1, hmi⟩
  · rw [hmi] at h1
    exact ⟨[], h1, Or.inl rfl⟩
  · simp only [hmi] at h1
    have hrf : refresh_member [{ time := 0, addr := addr }] addr gtime =
        [{ time := gtime, addr := addr }] := by
      unfold refresh_member
      rw [if_pos rfl]
    rw [hrf] at h1
    exact ⟨[{ time := gtime, addr := addr }], h1, Or.inr rfl⟩

theorem add_member_find?_spec (s : CacheState) (maddr addr : Nat) (port : Int)
    (timeout now : Nat)
    (pool1 : List group_entry) (count1 : Nat) (tr1 : List drv_call) (g0 : group_entry)
    (hp : ¬(port < 0 ∨ (PORT_MAX : Int) < port))
    (halloc : get_group_alloc s.groups_pool s.groups_count maddr = some (pool1, count1, tr1))
    (hfind : pool1.find? (fun g => g.ea = maddr) = some g0) :
    (add_member s maddr addr port timeout now).2.1.groups_pool.find? (fun g => g.ea = maddr) =
      some (upd_group_add g0 addr port.toNat (now + timeout) s.members_free s.members_count).1 := by
  have heag0 : g0.ea = maddr := by simpa using List.find?_some hfind
  have hpool : (add_member s maddr addr port timeout now).2.1.groups_pool =
      modify_group pool1 maddr (fun _ =>
        (upd_group_add g0 addr port.toNat (now + timeout) s.members_free s.members_count).1) := by
    unfold add_member
    rw [if_neg hp]
    simp only [halloc, hfind]
  rw [hpool, modify_group_find?_const _ _ _ (by rw [upd_group_add_ea]; exact heag0), hfind]
  rfl

theorem del_member_group_portmap (s : CacheState) (maddr addr : Nat) (port : Int)
    (g0 : group_entry)
    (hp : ¬(port < 0 ∨ (PORT_MAX : Int) < port))
    (hfind : s.groups_pool.find? (fun g => g.ea = maddr) = some g0) :
    group_portmap (del_member s maddr addr port).2.1 maddr =
      (upd_group_del g0 addr port.toNat).1.portmap := by
  have heag0 : g0.ea = maddr := by simpa using List.find?_some hfind
  have hpool : (del_member s maddr addr port).2.1.groups_pool =
      modify_group s.groups_pool maddr (fun _ =>
        if ((g0.portmap ^^^ (upd_group_del g0 addr port.toNat).1.portmap) &&& g0.portmap) ≠ 0 ∧
           (upd_group_del g0 addr port.toNat).1.portmap = 0
        then consume_group (upd_group_del g0 addr port.toNat).1
        else (upd_group_del g0 addr port.toNat).1) := by
    unfold del_member
    rw [if_neg hp, hfind]
  have hg'ea : (if ((g0.portmap ^^^ (upd_group_del g0 addr port.toNat).1.portmap) &&& g0.portmap) ≠ 0 ∧
        (upd_group_del g0 addr port.toNat).1.portmap = 0
      then consume_group (upd_group_del g0 addr port.toNat).1
      else (upd_group_del g0 addr port.toNat).1).ea = maddr := by
    split
    · show (upd_group_del g0 addr port.toNat).1.ea = maddr
      rw [upd_group_del_ea, heag0]
    · rw [upd_group_del_ea, heag0]
  unfold group_portmap
  rw [hpool, modify_group_find?_const _ _ _ hg'ea, hfind]
  show (if ((g0.portmap ^^^ (upd_group_del g0 addr port.toNat).1.portmap) &&& g0.portmap) ≠ 0 ∧
      (upd_group_del g0 addr port.toNat).1.portmap = 0
    then consume_group (upd_group_del g0 addr port.toNat).1
    else (upd_group_del g0 addr port.toNat).1).portmap = _
  split
  · rename_i hC
    show (0 : Nat) = _
    exact hC.2.symm
  · rfl

/-- C7 counterexample: on `c7_state` the group 5 already holds exactly the
member (address 7, port 2), so its bitmask is 4 before the add; after
`add_member` (a refresh) followed by `remove_member` of the same triple
the member is gone and the bitmask is 0, not its pre-add value 4. -/
theorem C7_cex_preexisting_member_not_restored :
    group_portmap c7_state 5 = 4 ∧
    group_portmap (del_member (add_member c7_state 5 7 2 50 0).2.1 5 7 2).2.1 5 = 0 ∧
    ¬(0 : Nat) = 4 := by
  refine ⟨rfl, rfl, by decide⟩

/-- C7 (amended): for every valid port p, group MAC G and address A, if
every group record for G (if any) is empty -- no members at all -- then
`remove_member`(G, A, p) right after `add_member`(G, A, p, t) leaves the
bitmask held for G equal to its value before the add, namely 0.  (When
(A, p) was already a member before the add, the remove genuinely deletes
it and the pre-add bitmask is not restored, per the counterexample.) -/
theorem C7_remove_after_add_on_empty_group (s : CacheState) (G A : Nat) (p : Int)
    (t now : Nat)
    (hp : ¬(p < 0 ∨ (PORT_MAX : Int) < p))
    (hempty : ∀ g ∈ s.groups_pool, g.ea = G →
      g.portmap = 0 ∧ g.members = List.replicate (PORT_MAX + 1) []) :
    group_portmap s G = 0 ∧
    group_portmap (del_member (add_member s G A p t now).2.1 G A p).2.1 G = 0 := by
  have hplt : p.toNat < PORT_MAX + 1 := by
    rw [show PORT_MAX = 8 from rfl]
    rw [show (PORT_MAX : Int) = 8 from rfl] at hp
    omega
  have hbefore : group_portmap s G = 0 := by
    unfold group_portmap
    rcases hf : s.groups_pool.find? (fun g => g.ea = G) with _ | g
    · rw [hf]
      rfl
    · rw [hf]
      have h := hempty g (List.mem_of_find?_eq_some hf) (by simpa using List.find?_some hf)
      simp [h.1]
  refine ⟨hbefore, ?_⟩
  rcases halloc : get_group_alloc s.groups_pool s.groups_count G with _ | ⟨pool1, count1, tr1⟩
  · have hadd : (add_member s G A p t now).2.1 = s := by
      unfold add_member
      rw [if_neg hp]
      simp only [halloc]
    rw [hadd]
    rcases hf : s.groups_pool.find? (fun g => g.ea = G) with _ | g0
    · rw [del_member_no_group s G A p hp hf]
      exact hbefore
    · obtain ⟨hpm, hmm⟩ := hempty g0 (List.mem_of_find?_eq_some hf)
        (by simpa using List.find?_some hf)
      rw [del_member_noop s G A p g0 hp hf
        (by rw [hpm, get_portmap_empty g0 hmm])
        (by rw [hmm, List.length_replicate]; exact hplt)
        (by rw [hmm, getD_replicate_nil]; rfl)]
      exact hbefore
  · obtain ⟨g0, hfind, heag0⟩ := get_group_alloc_find? halloc
    have hg0empty : g0.members = List.replicate (PORT_MAX + 1) [] := by
      rcases get_group_alloc_spec halloc with
        ⟨g1, hf, rfl, _, _⟩ | ⟨hf, ⟨_, rfl, _, _⟩ | ⟨_, v, hv, rfl, _, _⟩⟩
      · exact (hempty g0 (List.mem_of_find?_eq_some hfind) heag0).2
      · rw [List.find?_append, hf, List.find?_cons_of_pos _ (by simp)] at hfind
        simp only [Option.none_or] at hfind
        injection hfind with hfind
        rw [← hfind]
        rfl
      · rw [List.find?_append, find?_eraseP_none hf, List.find?_cons_of_pos _ (by simp)] at hfind
        simp only [Option.none_or] at hfind
        injection hfind with hfind
        rw [← hfind]
        rfl
    have hfind1 := add_member_find?_spec s G A p t now pool1 count1 tr1 g0 hp halloc hfind
    rw [del_member_group_portmap _ G A p _ hp hfind1]
    obtain ⟨l2, hl2mem, hl2⟩ :=
      upd_group_add_empty g0 A p.toNat (now + t) s.members_free s.members_count hg0empty
    rw [upd_group_del_portmap_inv]
    apply get_portmap_zero_of_forall_nil
    intro q
    rw [upd_group_del_members, hl2mem, List.set_set]
    have hget : ((List.replicate (PORT_MAX + 1) ([] : List member_entry)).set p.toNat l2).getD
        p.toNat [] = l2 :=
      getD_set_self _ _ _ _ (by rw [List.length_replicate]; exact hplt)
    rw [hget]
    have hnil : (if l2.any (fun m => m.addr = A) = true
        then l2.eraseP (fun m => decide (m.addr = A)) else l2) = [] := by
      rcases hl2 with rfl | rfl
      · rfl
      · rw [if_pos (by simp), List.eraseP_cons_of_pos (by simp)]
    rw [hnil, List.getD_eq_getElem?_getD, List.getElem?_set]
    split
    · split <;> rfl
    · rw [List.getElem?_replicate]
      split <;> rfl

/-- Witness for the amended C7: a fresh cache (no group for MAC 5 at all),
add then remove (5, 7, port 2). -/
theorem C7_remove_after_add_on_empty_group_witness :
    group_portmap init_cache 5 = 0 ∧
    group_portmap (del_member (add_member init_cache 5 7 2 50 0).2.1 5 7 2).2.1 5 = 0 :=
  C7_remove_after_add_on_empty_group init_cache 5 7 2 50 0 (by decide)
    (by intro g hg; cases hg)

theorem gt_step_foldl_trace (rpm now : Nat) (l : List group_entry) :
    ∀ (gs : List group_entry) (ex fr : Nat) (tr : List drv_call),
      ∀ c ∈ (l.foldl (gt_step rpm now) (gs, ex, fr, tr)).2.2.2,
        c ∈ tr ∨ ∃ ea pm, c = drv_call.del_portmap ea (land_not pm rpm) := by
  induction l with
  | nil => intro gs ex fr tr c hc; exact Or.inl hc
  | cons g rest ih =>
    intro gs ex fr tr c hc
    rw [List.foldl_cons] at hc
    have hstep : gt_step rpm now (gs, ex, fr, tr) g =
        (if g.portmap = 0 then (gs ++ [g], ex, fr, tr)
         else if now < g.time then (gs ++ [g], (if g.time < ex then g.time else ex), fr, tr)
         else (gs ++ [consume_group g], ex, fr + group_member_total g,
               tr ++ (if land_not g.portmap rpm ≠ 0
                      then [drv_call.del_portmap g.ea (land_not g.portmap rpm)] else []))) := rfl
    rw [hstep] at hc
    by_cases h0 : g.portmap = 0
    · rw [if_pos h0] at hc
      exact ih _ _ _ _ c hc
    · rw [if_neg h0] at hc
      by_cases h1 : now < g.time
      · rw [if_pos h1] at hc
        exact ih _ _ _ _ c hc
      · rw [if_neg h1] at hc
        rcases ih _ _ _ _ c hc with h2 | h2
        · rcases List.mem_append.mp h2 with h3 | h3
          · exact Or.inl h3
          · by_cases h4 : land_not g.portmap rpm ≠ 0
            · rw [if_pos h4] at h3
              exact Or.inr ⟨g.ea, g.portmap, List.mem_singleton.mp h3⟩
            · rw [if_neg h4] at h3
              cases h3
        · exact Or.inr h2

theorem mem_router_fanout_del (pool : List group_entry) (pm : Nat) (c : drv_call)
    (hc : c ∈ router_fanout_del pool pm) :
    ∃ g, g ∈ pool ∧ c = drv_call.del_portmap g.ea (land_not pm g.portmap) := by
  unfold router_fanout_del at hc
  rcases List.mem_filterMap.mp hc with ⟨g, hg, hfg⟩
  refine ⟨g, hg, ?_⟩
  by_cases h : land_not pm g.portmap ≠ 0
  · rw [if_pos h] at hfg
    injection hfg with hfg
    exact hfg.symm
  · rw [if_neg h] at hfg
    cases hfg

/-- The router sweep emits clears for a single deactivated-ports mask, and
every bit of that mask is absent from the router portmap after the firing. -/
theorem router_timer_spec (s : CacheState) (now : Nat) :
    ∃ deact : Nat,
      (router_timer s now).2 =
        (if deact ≠ 0 then router_fanout_del s.groups_pool deact else []) ∧
      ∀ q, deact.testBit q = true →
        (router_timer s now).1.routers_group.portmap.testBit q = false := by
  unfold router_timer
  by_cases ht : now < s.routers_group.time
  · rw [if_pos ht]
    split
    rename_i g2 freed hsweep
    by_cases hk : g2.portmap ≠ 0
    · rw [if_pos hk]
      refine ⟨(s.routers_group.portmap ^^^ g2.portmap) &&& s.routers_group.portmap, rfl, ?_⟩
      intro q hq
      rw [deact_testBit, Bool.and_eq_true] at hq
      simpa using hq.2
    · rw [if_neg hk]
      refine ⟨(s.routers_group.portmap ^^^ g2.portmap) &&& s.routers_group.portmap, rfl, ?_⟩
      intro q _
      show Nat.testBit 0 q = false
      exact Nat.zero_testBit q
  · rw [if_neg ht]
    refine ⟨s.routers_group.portmap, rfl, ?_⟩
    intro q _
    show Nat.testBit 0 q = false
    exact Nat.zero_testBit q

theorem del_member_trace_shape (s : CacheState) (maddr addr : Nat) (port : Int) :
    (del_member s maddr addr port).2.2 = [] ∨
    ∃ d, (del_member s maddr addr port).2.2 =
      [drv_call.del_portmap maddr (land_not d s.routers_group.portmap)] := by
  by_cases hp : port < 0 ∨ (PORT_MAX : Int) < port
  · left
    unfold del_member
    rw [if_pos hp]
  · rcases hf : s.groups_pool.find? (fun g => g.ea = maddr) with _ | g0
    · left
      unfold del_member
      rw [if_neg hp, hf]
    · have htr : (del_member s maddr addr port).2.2 =
          (if land_not ((g0.portmap ^^^ (upd_group_del g0 addr port.toNat).1.portmap) &&& g0.portmap)
               s.routers_group.portmap ≠ 0
           then [drv_call.del_portmap maddr
                  (land_not ((g0.portmap ^^^ (upd_group_del g0 addr port.toNat).1.portmap) &&& g0.portmap)
                    s.routers_group.portmap)]
           else []) := by
        unfold del_member
        rw [if_neg hp, hf]
      rw [htr]
      split
      · exact Or.inr ⟨_, rfl⟩
      · exact Or.inl rfl

/-- C6: while port p is still held by the router state, neither
`remove_member` nor the group sweep ever issues a driver instruction that
clears p from any group's forwarding mask; and the clears issued by the
router sweep cover only ports that have just been deactivated (absent
from the router portmap after the firing) and, per group, only ports
absent from that group's own bitmask. -/
theorem C6_router_ports_never_cleared_while_active (s : CacheState) (p : Nat)
    (hp : s.routers_group.portmap.testBit p = true) :
    (∀ (maddr addr : Nat) (port : Int) (c : drv_call),
        c ∈ (del_member s maddr addr port).2.2 →
        ∃ ea m, c = drv_call.del_portmap ea m ∧ m.testBit p = false) ∧
    (∀ (now : Nat) (c : drv_call), c ∈ (group_timer s now).2 →
        ∃ ea m, c = drv_call.del_portmap ea m ∧ m.testBit p = false) ∧
    (∀ (now : Nat) (c : drv_call), c ∈ (router_timer s now).2 →
        ∃ g, g ∈ s.groups_pool ∧ ∃ m, c = drv_call.del_portmap g.ea m ∧
          ∀ q, m.testBit q = true →
            (router_timer s now).1.routers_group.portmap.testBit q = false ∧
            g.portmap.testBit q = false) := by
  refine ⟨?_, ?_, ?_⟩
  · intro maddr addr port c hc
    rcases del_member_trace_shape s maddr addr port with h | ⟨d, h⟩
    · rw [h] at hc
      cases hc
    · rw [h] at hc
      refine ⟨maddr, _, List.mem_singleton.mp hc, ?_⟩
      rw [land_not_testBit, hp]
      simp
  · intro now c hc
    unfold group_timer at hc
    split at hc
    rename_i gs expires freed tr hfold
    have htr : tr = (s.groups_pool.foldl (gt_step s.routers_group.portmap now)
        ([], now + HALF, 0, [])).2.2.2 := by rw [hfold]
    rw [htr] at hc
    rcases gt_step_foldl_trace _ _ _ _ _ _ _ c hc with h1 | ⟨ea, pm, rfl⟩
    · cases h1
    · refine ⟨ea, _, rfl, ?_⟩
      rw [land_not_testBit, hp]
      simp
  · intro now c hc
    obtain ⟨deact, htr, hpost⟩ := router_timer_spec s now
    rw [htr] at hc
    split at hc
    · rcases mem_router_fanout_del _ _ _ hc with ⟨g, hg, rfl⟩
      refine ⟨g, hg, _, rfl, ?_⟩
      intro q hq
      rw [land_not_testBit, Bool.and_eq_true] at hq
      exact ⟨hpost q hq.1, by simpa using hq.2⟩
    · cases hc

/-- Witness for C6 on `c4_state`, whose router state holds port 2. -/
theorem C6_router_ports_never_cleared_while_active_witness :
    (∀ (maddr addr : Nat) (port : Int) (c : drv_call),
        c ∈ (del_member c4_state maddr addr port).2.2 →
        ∃ ea m, c = drv_call.del_portmap ea m ∧ m.testBit 2 = false) ∧
    (∀ (now : Nat) (c : drv_call), c ∈ (group_timer c4_state now).2 →
        ∃ ea m, c = drv_call.del_portmap ea m ∧ m.testBit 2 = false) ∧
    (∀ (now : Nat) (c : drv_call), c ∈ (router_timer c4_state now).2 →
        ∃ g, g ∈ c4_state.groups_pool ∧ ∃ m, c = drv_call.del_portmap g.ea m ∧
          ∀ q, m.testBit q = true →
            (router_timer c4_state now).1.routers_group.portmap.testBit q = false ∧
            g.portmap.testBit q = false) :=
  C6_router_ports_never_cleared_while_active c4_state 2 (by decide)

set_option maxRecDepth 100000 in
/-- C10 counterexample: on `c10_state` (group pool full with a bitmask-0
slot, member pool exhausted) `add_member` for the new group MAC 999
returns 0 as the claim says, but it does make a driver call: the recycled
slot's old MAC 1 gets its forwarding mask cleared. -/
theorem C10_cex_recycling_makes_driver_call :
    (add_member c10_state 999 7 2 5 0).1 = 0 ∧
    (add_member c10_state 999 7 2 5 0).2.2 = [drv_call.clr_portmap 1] := by
  exact ⟨rfl, rfl⟩

/-- C10 (amended): when `add_member` with a valid port obtains a group
slot for a new group MAC but the member cannot be allocated (free list
empty, member pool at capacity), the call returns bitmask 0 and issues no
driver instruction for that group's MAC -- at most the clear of a recycled
slot's previous MAC -- yet it still mutates state: an empty group entry
(bitmask 0, no members) for the new MAC remains in the table with expiry
now + timeout, and the sweep timer is pulled to that expiry when it was
idle or later. -/
theorem C10_member_pool_exhaustion_still_mutates (s : CacheState) (maddr addr : Nat)
    (port : Int) (timeout now : Nat)
    (pool1 : List group_entry) (count1 : Nat) (tr1 : List drv_call)
    (hp : ¬(port < 0 ∨ (PORT_MAX : Int) < port))
    (hnog : s.groups_pool.find? (fun g => g.ea = maddr) = none)
    (halloc : get_group_alloc s.groups_pool s.groups_count maddr = some (pool1, count1, tr1))
    (hfree : s.members_free = 0)
    (hfull : MEMBER_POOL_SIZE ≤ s.members_count) :
    (add_member s maddr addr port timeout now).1 = 0 ∧
    (add_member s maddr addr port timeout now).2.2 = tr1 ∧
    (tr1 = [] ∨ ∃ ea, tr1 = [drv_call.clr_portmap ea] ∧ ¬ea = maddr) ∧
    (∃ g, (add_member s maddr addr port timeout now).2.1.groups_pool.find?
          (fun g => g.ea = maddr) = some g ∧
      g.portmap = 0 ∧ g.time = now + timeout ∧
      g.members = List.replicate (PORT_MAX + 1) []) ∧
    (add_member s maddr addr port timeout now).2.1.groups_timer =
      (if !s.groups_timer.pending ∨ now + timeout < s.groups_timer.expires
       then { pending := true, expires := now + timeout } else s.groups_timer) := by
  have hplt : port.toNat < PORT_MAX + 1 := by
    rw [show PORT_MAX = 8 from rfl]
    rw [show (PORT_MAX : Int) = 8 from rfl] at hp
    omega
  obtain ⟨g0, hfind, heag0⟩ := get_group_alloc_find? halloc
  have hg0m : g0.members = List.replicate (PORT_MAX + 1) [] ∧ g0.portmap = 0 := by
    rcases get_group_alloc_spec halloc with
      ⟨g1, hf, _, _, _⟩ | ⟨hf, ⟨_, rfl, _, _⟩ | ⟨_, v, hv, rfl, _, _⟩⟩
    · rw [hnog] at hf
      cases hf
    · rw [List.find?_append, hf, List.find?_cons_of_pos _ (by simp)] at hfind
      simp only [Option.none_or] at hfind
      injection hfind with hfind
      rw [← hfind]
      exact ⟨rfl, rfl⟩
    · rw [List.find?_append, find?_eraseP_none hf, List.find?_cons_of_pos _ (by simp)] at hfind
      simp only [Option.none_or] at hfind
      injection hfind with hfind
      rw [← hfind]
      exact ⟨rfl, rfl⟩
  have hlen : port.toNat < g0.members.length := by
    rw [hg0m.1, List.length_replicate]
    exact hplt
  have hmi : member_insert (g0.members.getD port.toNat []) addr
      s.members_free s.members_count = none := by
    rw [hg0m.1, getD_replicate_nil, hfree]
    unfold member_insert
    rw [if_neg (by simp), if_neg (by omega), if_neg (by omega)]
  have hpm0 : get_portmap { members := g0.members, time := now + timeout, portmap := g0.portmap, ea := g0.ea } = 0 :=
    get_portmap_empty _ hg0m.1
  have hupd : upd_group_add g0 addr port.toNat (now + timeout)
      s.members_free s.members_count =
      ({ g0 with time := now + timeout, portmap := 0 }, s.members_free, s.members_count) := by
    unfold upd_group_add
    simp only [hmi, set_getD_self _ _ _ hlen]
    rw [hpm0]
  have hret : (add_member s maddr addr port timeout now).1 = 0 := by
    unfold add_member
    rw [if_neg hp]
    simp only [halloc, hfind, hupd, Nat.and_zero, Int.ofNat_zero]
    rfl
  have htr : (add_member s maddr addr port timeout now).2.2 = tr1 := by
    unfold add_member
    rw [if_neg hp]
    simp only [halloc, hfind, hupd, Nat.and_zero, ne_eq, not_true_eq_false,
      if_false, List.append_nil]
  have hpool : (add_member s maddr addr port timeout now).2.1.groups_pool =
      modify_group pool1 maddr (fun _ => { g0 with time := now + timeout, portmap := 0 }) := by
    unfold add_member
    rw [if_neg hp]
    simp only [halloc, hfind, hupd]
  have htimer : (add_member s maddr addr port timeout now).2.1.groups_timer =
      (if !s.groups_timer.pending ∨ now + timeout < s.groups_timer.expires
       then { pending := true, expires := now + timeout } else s.groups_timer) := by
    unfold add_member
    rw [if_neg hp]
    simp only [halloc, hfind, hupd]
  refine ⟨hret, htr, ?_, ?_, htimer⟩
  · rcases get_group_alloc_spec halloc with
      ⟨g1, hf, _, _, _⟩ | ⟨hf, ⟨_, _, _, rfl⟩ | ⟨_, v, hv, _, _, rfl⟩⟩
    · rw [hnog] at hf
      cases hf
    · exact Or.inl rfl
    · refine Or.inr ⟨v.ea, rfl, ?_⟩
      rw [List.find?_eq_none] at hnog
      have := hnog v (List.mem_of_find?_eq_some hv)
      simpa using this
  · refine ⟨{ g0 with time := now + timeout, portmap := 0 }, ?_, rfl, rfl, by
      show g0.members = _
      exact hg0m.1⟩
    rw [hpool, modify_group_find?_const _ _ _ (by show g0.ea = maddr; exact heag0), hfind]
    rfl

/-- Witness for the amended C10: a fresh cache whose member pool counter
is at capacity; adding (group 999, address 7, port 2) creates the empty
group but no member. -/
theorem C10_member_pool_exhaustion_still_mutates_witness :
    (add_member { init_cache with members_count := MEMBER_POOL_SIZE } 999 7 2 5 0).1 = 0 ∧
    (add_member { init_cache with members_count := MEMBER_POOL_SIZE } 999 7 2 5 0).2.2 = [] ∧
    (([] : List drv_call) = [] ∨ ∃ ea, ([] : List drv_call) = [drv_call.clr_portmap ea] ∧ ¬ea = 999) ∧
    (∃ g, (add_member { init_cache with members_count := MEMBER_POOL_SIZE } 999 7 2 5 0).2.1.groups_pool.find?
          (fun g => g.ea = 999) = some g ∧
      g.portmap = 0 ∧ g.time = 0 + 5 ∧
      g.members = List.replicate (PORT_MAX + 1) []) ∧
    (add_member { init_cache with members_count := MEMBER_POOL_SIZE } 999 7 2 5 0).2.1.groups_timer =
      (if !({ init_cache with members_count := MEMBER_POOL_SIZE } : CacheState).groups_timer.pending ∨
          0 + 5 < ({ init_cache with members_count := MEMBER_POOL_SIZE } : CacheState).groups_timer.expires
       then { pending := true, expires := 0 + 5 }
       else ({ init_cache with members_count := MEMBER_POOL_SIZE } : CacheState).groups_timer) :=
  C10_member_pool_exhaustion_still_mutates { init_cache with members_count := MEMBER_POOL_SIZE }
    999 7 2 5 0 [{ fresh_group_entry with ea := 999 }] 1 []
    (by decide) (by rfl) (by rfl) (by rfl) (by decide)
